/-
Verification of the class-schedule-creator repository.

Shallow embedding of the Python sources:
  models.py, course_catalog.py, graduation_paths.py,
  resource_calculator.py, scheduler.py
followed by theorems settling the specification claims.

Modelling conventions:
  * Python `int` is `Int`; `math.ceil(a / b)` for a positive divisor `b`
    is `pyCeilDiv` (exact; Python's float division agrees on the values
    arising here).
  * Python dicts are association lists in insertion order (Python 3.7+
    dicts preserve insertion order; `defaultdict` entries are created on
    first access).
  * `list(set(xs))` (in `YearPlan.get_all_courses`) has an unspecified
    iteration order in Python; it is modelled as first-occurrence
    deduplication.  No claim settled below depends on a finer property
    of that order.
  * The per-semester/per-period availability dicts of the scheduler are
    modelled as total Boolean functions initialised to `true`; the Python
    code initialises exactly the keys it later consults.
-/
import Mathlib

set_option autoImplicit false
set_option maxRecDepth 1000000

namespace ClassSchedule

/-- `math.ceil(n / m)` for integer `n` and positive integer `m`
(integer-exact version of the float computation in the source). -/
def pyCeilDiv (n m : Int) : Int := -((-n).ediv m)

/-- First value bound to key `k` in an association list. -/
def alistGet? {α β : Type} [DecidableEq α] (k : α) :
    List (α × β) → Option β
  | [] => none
  | (a, b) :: l => if a = k then some b else alistGet? k l

/-- `m[k] += n` on a `defaultdict(int)` modelled as an association list:
update in place if present, else append with initial value `n`. -/
def alistBumpInt {α : Type} [DecidableEq α] (m : List (α × Int)) (k : α)
    (n : Int) : List (α × Int) :=
  match alistGet? k m with
  | some _ => m.map (fun p => if p.1 = k then (p.1, p.2 + n) else p)
  | none => m ++ [(k, n)]

/- ===================== models.py ===================== -/

/-- models.py: `SubjectArea`. -/
inductive SubjectArea where
  | HISTORY_SOCIAL_SCIENCE
  | ENGLISH
  | MATHEMATICS
  | LABORATORY_SCIENCE
  | LANGUAGE_OTHER
  | VISUAL_PERFORMING_ARTS
  | COLLEGE_PREP_ELECTIVE
  | PHYSICAL_EDUCATION
  | RELIGIOUS_STUDIES
  | ELECTIVE
  deriving DecidableEq, Repr

/-- models.py: `RoomType`. -/
inductive RoomType where
  | GENERAL
  | CHEMISTRY_LAB
  | BIOLOGY_LAB
  | COMPUTER_LAB
  | ROBOTICS_LAB
  | ART_ROOM
  | GYM
  | MUSIC_ROOM
  deriving DecidableEq, Repr

/-- models.py: `GraduationPath`. -/
inductive GraduationPath where
  | MINIMUM
  | PRE_MED
  | ENGINEERING
  deriving DecidableEq, Repr

/-- models.py: `CourseLevel`. -/
inductive CourseLevel where
  | REGULAR
  | HONORS
  | AP
  deriving DecidableEq, Repr

/-- models.py: `Course` (the `description` strings are carried verbatim
from the source where given; they are never read by the algorithms). -/
structure Course where
  code : String
  name : String
  subject_area : SubjectArea
  level : CourseLevel := CourseLevel.REGULAR
  credits : Int := 10
  semesters : Int := 2
  room_type_required : RoomType := RoomType.GENERAL
  prerequisites : List String := []
  grade_levels : List Int := [9, 10, 11, 12]
  deriving DecidableEq, Repr

/-- models.py: `Classroom`. -/
structure Classroom where
  id : String
  name : String
  room_type : RoomType
  capacity : Int := 25
  deriving DecidableEq, Repr

/-- models.py: `Classroom.can_host`. -/
def Classroom.can_host (c : Classroom) (course : Course) : Bool :=
  if course.room_type_required == RoomType.GENERAL then true
  else c.room_type == course.room_type_required

/-- models.py: `Teacher`. -/
structure Teacher where
  id : String
  name : String
  subject_areas : List SubjectArea
  can_teach_ap : Bool := false
  max_periods_per_day : Int := 5
  deriving DecidableEq, Repr

/-- models.py: `Teacher.can_teach`. -/
def Teacher.can_teach (t : Teacher) (course : Course) : Bool :=
  if !(t.subject_areas.contains course.subject_area) then false
  else if course.level == CourseLevel.AP && !t.can_teach_ap then false
  else true

/- ===================== course_catalog.py ===================== -/

/-- course_catalog.py: `create_course_catalog` / `COURSE_CATALOG`, as an
association list in the insertion order of the Python dict.  The
`description` keyword arguments of the source are presentation-only and
are not carried (never read by any modelled operation). -/
def COURSE_CATALOG : List (String × Course) := [
  ("WHIST",
   { code := "WHIST", name := "World History",
     subject_area := SubjectArea.HISTORY_SOCIAL_SCIENCE,
     credits := 10, semesters := 2, grade_levels := [10] }),
  ("WHIST-AP",
   { code := "WHIST-AP", name := "AP World History",
     subject_area := SubjectArea.HISTORY_SOCIAL_SCIENCE,
     level := CourseLevel.AP, credits := 10, semesters := 2,
     grade_levels := [10] }),
  ("USHIST",
   { code := "USHIST", name := "US History",
     subject_area := SubjectArea.HISTORY_SOCIAL_SCIENCE,
     credits := 10, semesters := 2, grade_levels := [11] }),
  ("USHIST-AP",
   { code := "USHIST-AP", name := "AP US History",
     subject_area := SubjectArea.HISTORY_SOCIAL_SCIENCE,
     level := CourseLevel.AP, credits := 10, semesters := 2,
     grade_levels := [11] }),
  ("GOVT",
   { code := "GOVT", name := "US Government",
     subject_area := SubjectArea.HISTORY_SOCIAL_SCIENCE,
     credits := 5, semesters := 1, grade_levels := [12] }),
  ("GOVT-AP",
   { code := "GOVT-AP", name := "AP US Government",
     subject_area := SubjectArea.HISTORY_SOCIAL_SCIENCE,
     level := CourseLevel.AP, credits := 5, semesters := 1,
     grade_levels := [12] }),
  ("ECON",
   { code := "ECON", name := "Economics",
     subject_area := SubjectArea.HISTORY_SOCIAL_SCIENCE,
     credits := 5, semesters := 1, grade_levels := [12] }),
  ("ENG9",
   { code := "ENG9", name := "English 9",
     subject_area := SubjectArea.ENGLISH,
     credits := 10, semesters := 2, grade_levels := [9] }),
  ("ENG10",
   { code := "ENG10", name := "English 10",
     subject_area := SubjectArea.ENGLISH,
     credits := 10, semesters := 2, grade_levels := [10],
     prerequisites := ["ENG9"] }),
  ("ENG11",
   { code := "ENG11", name := "English 11",
     subject_area := SubjectArea.ENGLISH,
     credits := 10, semesters := 2, grade_levels := [11],
     prerequisites := ["ENG10"] }),
  ("ENG11-AP",
   { code := "ENG11-AP", name := "AP English Language",
     subject_area := SubjectArea.ENGLISH,
     level := CourseLevel.AP, credits := 10, semesters := 2,
     grade_levels := [11], prerequisites := ["ENG10"] }),
  ("ENG12",
   { code := "ENG12", name := "English 12",
     subject_area := SubjectArea.ENGLISH,
     credits := 10, semesters := 2, grade_levels := [12],
     prerequisites := ["ENG11"] }),
  ("ENG12-AP",
   { code := "ENG12-AP", name := "AP English Literature",
     subject_area := SubjectArea.ENGLISH,
     level := CourseLevel.AP, credits := 10, semesters := 2,
     grade_levels := [12], prerequisites := ["ENG11"] }),
  ("ALG1",
   { code := "ALG1", name := "Algebra 1",
     subject_area := SubjectArea.MATHEMATICS,
     credits := 10, semesters := 2, grade_levels := [9] }),
  ("GEOM",
   { code := "GEOM", name := "Geometry",
     subject_area := SubjectArea.MATHEMATICS,
     credits := 10, semesters := 2, grade_levels := [9, 10],
     prerequisites := ["ALG1"] }),
  ("ALG2",
   { code := "ALG2", name := "Algebra 2",
     subject_area := SubjectArea.MATHEMATICS,
     credits := 10, semesters := 2, grade_levels := [10, 11],
     prerequisites := ["GEOM"] }),
  ("PRECALC",
   { code := "PRECALC", name := "Pre-Calculus",
     subject_area := SubjectArea.MATHEMATICS,
     credits := 10, semesters := 2, grade_levels := [11, 12],
     prerequisites := ["ALG2"] }),
  ("CALC-AP-AB",
   { code := "CALC-AP-AB", name := "AP Calculus AB",
     subject_area := SubjectArea.MATHEMATICS,
     level := CourseLevel.AP, credits := 10, semesters := 2,
     grade_levels := [11, 12], prerequisites := ["PRECALC"] }),
  ("CALC-AP-BC",
   { code := "CALC-AP-BC", name := "AP Calculus BC",
     subject_area := SubjectArea.MATHEMATICS,
     level := CourseLevel.AP, credits := 10, semesters := 2,
     grade_levels := [12], prerequisites := ["CALC-AP-AB"] }),
  ("STATS-AP",
   { code := "STATS-AP", name := "AP Statistics",
     subject_area := SubjectArea.MATHEMATICS,
     level := CourseLevel.AP, credits := 10, semesters := 2,
     grade_levels := [11, 12], prerequisites := ["ALG2"] }),
  ("BIO",
   { code := "BIO", name := "Biology",
     subject_area := SubjectArea.LABORATORY_SCIENCE,
     credits := 10, semesters := 2,
     room_type_required := RoomType.BIOLOGY_LAB,
     grade_levels := [9, 10] }),
  ("BIO-AP",
   { code := "BIO-AP", name := "AP Biology",
     subject_area := SubjectArea.LABORATORY_SCIENCE,
     level := CourseLevel.AP, credits := 10, semesters := 2,
     room_type_required := RoomType.BIOLOGY_LAB,
     grade_levels := [11, 12], prerequisites := ["BIO", "CHEM"] }),
  ("CHEM",
   { code := "CHEM", name := "Chemistry",
     subject_area := SubjectArea.LABORATORY_SCIENCE,
     credits := 10, semesters := 2,
     room_type_required := RoomType.CHEMISTRY_LAB,
     grade_levels := [10, 11], prerequisites := ["ALG1"] }),
  ("CHEM-AP",
   { code := "CHEM-AP", name := "AP Chemistry",
     subject_area := SubjectArea.LABORATORY_SCIENCE,
     level := CourseLevel.AP, credits := 10, semesters := 2,
     room_type_required := RoomType.CHEMISTRY_LAB,
     grade_levels := [11, 12], prerequisites := ["CHEM", "ALG2"] }),
  ("PHYS",
   { code := "PHYS", name := "Physics",
     subject_area := SubjectArea.LABORATORY_SCIENCE,
     credits := 10, semesters := 2,
     room_type_required := RoomType.BIOLOGY_LAB,
     grade_levels := [11, 12], prerequisites := ["ALG2"] }),
  ("PHYS-AP-1",
   { code := "PHYS-AP-1", name := "AP Physics 1",
     subject_area := SubjectArea.LABORATORY_SCIENCE,
     level := CourseLevel.AP, credits := 10, semesters := 2,
     room_type_required := RoomType.BIOLOGY_LAB,
     grade_levels := [11, 12], prerequisites := ["GEOM"] }),
  ("PHYS-AP-C",
   { code := "PHYS-AP-C", name := "AP Physics C",
     subject_area := SubjectArea.LABORATORY_SCIENCE,
     level := CourseLevel.AP, credits := 10, semesters := 2,
     room_type_required := RoomType.BIOLOGY_LAB,
     grade_levels := [12], prerequisites := ["PHYS", "CALC-AP-AB"] }),
  ("ENVSCI-AP",
   { code := "ENVSCI-AP", name := "AP Environmental Science",
     subject_area := SubjectArea.LABORATORY_SCIENCE,
     level := CourseLevel.AP, credits := 10, semesters := 2,
     room_type_required := RoomType.BIOLOGY_LAB,
     grade_levels := [11, 12], prerequisites := ["BIO"] }),
  ("ARAB1",
   { code := "ARAB1", name := "Arabic 1",
     subject_area := SubjectArea.LANGUAGE_OTHER,
     credits := 10, semesters := 2, grade_levels := [9, 10, 11, 12] }),
  ("ARAB2",
   { code := "ARAB2", name := "Arabic 2",
     subject_area := SubjectArea.LANGUAGE_OTHER,
     credits := 10, semesters := 2, grade_levels := [9, 10, 11, 12],
     prerequisites := ["ARAB1"] }),
  ("ARAB3",
   { code := "ARAB3", name := "Arabic 3",
     subject_area := SubjectArea.LANGUAGE_OTHER,
     credits := 10, semesters := 2, grade_levels := [10, 11, 12],
     prerequisites := ["ARAB2"] }),
  ("ARAB4",
   { code := "ARAB4", name := "Arabic 4",
     subject_area := SubjectArea.LANGUAGE_OTHER,
     credits := 10, semesters := 2, grade_levels := [11, 12],
     prerequisites := ["ARAB3"] }),
  ("ART1",
   { code := "ART1", name := "Art 1",
     subject_area := SubjectArea.VISUAL_PERFORMING_ARTS,
     credits := 10, semesters := 2,
     room_type_required := RoomType.GENERAL,
     grade_levels := [9, 10, 11, 12] }),
  ("ART2",
   { code := "ART2", name := "Art 2",
     subject_area := SubjectArea.VISUAL_PERFORMING_ARTS,
     credits := 10, semesters := 2,
     room_type_required := RoomType.GENERAL,
     grade_levels := [10, 11, 12], prerequisites := ["ART1"] }),
  ("MUSIC1",
   { code := "MUSIC1", name := "Music",
     subject_area := SubjectArea.VISUAL_PERFORMING_ARTS,
     credits := 10, semesters := 2,
     room_type_required := RoomType.GENERAL,
     grade_levels := [9, 10, 11, 12] }),
  ("CSP-AP",
   { code := "CSP-AP", name := "AP Computer Science Principles",
     subject_area := SubjectArea.COLLEGE_PREP_ELECTIVE,
     level := CourseLevel.AP, credits := 10, semesters := 2,
     room_type_required := RoomType.COMPUTER_LAB,
     grade_levels := [9, 10, 11, 12] }),
  ("CSA-AP",
   { code := "CSA-AP", name := "AP Computer Science A",
     subject_area := SubjectArea.COLLEGE_PREP_ELECTIVE,
     level := CourseLevel.AP, credits := 10, semesters := 2,
     room_type_required := RoomType.COMPUTER_LAB,
     grade_levels := [10, 11, 12], prerequisites := ["CSP-AP"] }),
  ("ROBOTICS",
   { code := "ROBOTICS", name := "Robotics",
     subject_area := SubjectArea.COLLEGE_PREP_ELECTIVE,
     credits := 10, semesters := 2,
     room_type_required := RoomType.ROBOTICS_LAB,
     grade_levels := [10, 11, 12] }),
  ("ROBOTICS-ADV",
   { code := "ROBOTICS-ADV", name := "Advanced Robotics",
     subject_area := SubjectArea.COLLEGE_PREP_ELECTIVE,
     credits := 10, semesters := 2,
     room_type_required := RoomType.ROBOTICS_LAB,
     grade_levels := [11, 12], prerequisites := ["ROBOTICS"] }),
  ("PSYCH-AP",
   { code := "PSYCH-AP", name := "AP Psychology",
     subject_area := SubjectArea.COLLEGE_PREP_ELECTIVE,
     level := CourseLevel.AP, credits := 10, semesters := 2,
     grade_levels := [11, 12] }),
  ("PE9",
   { code := "PE9", name := "Physical Education 9",
     subject_area := SubjectArea.PHYSICAL_EDUCATION,
     credits := 10, semesters := 2,
     room_type_required := RoomType.GYM,
     grade_levels := [9] }),
  ("PE10",
   { code := "PE10", name := "Physical Education 10",
     subject_area := SubjectArea.PHYSICAL_EDUCATION,
     credits := 10, semesters := 2,
     room_type_required := RoomType.GYM,
     grade_levels := [10], prerequisites := ["PE9"] }),
  ("ISLAM1",
   { code := "ISLAM1", name := "Islamic Studies 1",
     subject_area := SubjectArea.RELIGIOUS_STUDIES,
     credits := 10, semesters := 2, grade_levels := [9] }),
  ("ISLAM2",
   { code := "ISLAM2", name := "Islamic Studies 2",
     subject_area := SubjectArea.RELIGIOUS_STUDIES,
     credits := 10, semesters := 2, grade_levels := [10],
     prerequisites := ["ISLAM1"] }),
  ("ISLAM3",
   { code := "ISLAM3", name := "Islamic Studies 3",
     subject_area := SubjectArea.RELIGIOUS_STUDIES,
     credits := 10, semesters := 2, grade_levels := [11],
     prerequisites := ["ISLAM2"] }),
  ("ISLAM4",
   { code := "ISLAM4", name := "Islamic Studies 4",
     subject_area := SubjectArea.RELIGIOUS_STUDIES,
     credits := 10, semesters := 2, grade_levels := [12],
     prerequisites := ["ISLAM3"] }),
  ("QURAN1",
   { code := "QURAN1", name := "Quran Studies 1",
     subject_area := SubjectArea.RELIGIOUS_STUDIES,
     credits := 10, semesters := 2, grade_levels := [9] }),
  ("QURAN2",
   { code := "QURAN2", name := "Quran Studies 2",
     subject_area := SubjectArea.RELIGIOUS_STUDIES,
     credits := 10, semesters := 2, grade_levels := [10],
     prerequisites := ["QURAN1"] }),
  ("QURAN3",
   { code := "QURAN3", name := "Quran Studies 3",
     subject_area := SubjectArea.RELIGIOUS_STUDIES,
     credits := 10, semesters := 2, grade_levels := [11],
     prerequisites := ["QURAN2"] }),
  ("QURAN4",
   { code := "QURAN4", name := "Quran Studies 4",
     subject_area := SubjectArea.RELIGIOUS_STUDIES,
     credits := 10, semesters := 2, grade_levels := [12],
     prerequisites := ["QURAN3"] })]

/-- `COURSE_CATALOG.get(code)` (dict lookup returning `None` when the
code is absent). -/
def catalogGet (code : String) : Option Course :=
  alistGet? code COURSE_CATALOG

/- ===================== graduation_paths.py ===================== -/

/-- graduation_paths.py: `YearPlan`. -/
structure YearPlan where
  year : Int
  semester1_courses : List String
  semester2_courses : List String
  deriving DecidableEq, Repr

/-- `list(set(s1 + s2))`: Python's set iteration order is unspecified;
modelled as first-occurrence deduplication of the concatenation. -/
def YearPlan.get_all_courses (yp : YearPlan) : List String :=
  (yp.semester1_courses ++ yp.semester2_courses).foldl
    (fun acc c => if acc.contains c then acc else acc ++ [c]) []

/-- graduation_paths.py: `GraduationPathPlan` (the derived
`total_credits` field and the `description` string are never read by the
modelled operations and are omitted). -/
structure GraduationPathPlan where
  path : GraduationPath
  year_plans : List YearPlan
  deriving DecidableEq, Repr

/-- graduation_paths.py: `create_minimum_path`. -/
def create_minimum_path : GraduationPathPlan :=
  { path := GraduationPath.MINIMUM,
    year_plans := [
      { year := 1,
        semester1_courses := ["ENG9", "ALG1", "BIO", "ARAB1", "PE9", "REL1"],
        semester2_courses := ["ENG9", "ALG1", "BIO", "ARAB1", "PE9", "REL1"] },
      { year := 2,
        semester1_courses := ["ENG10", "GEOM", "CHEM", "ARAB2", "PE10", "REL2"],
        semester2_courses := ["ENG10", "GEOM", "CHEM", "ARAB2", "PE10", "REL2"] },
      { year := 3,
        semester1_courses := ["ENG11", "ALG2", "WHIST", "ART1", "ARAB3", "REL3"],
        semester2_courses := ["ENG11", "ALG2", "WHIST", "ART1", "ARAB3", "REL3"] },
      { year := 4,
        semester1_courses := ["ENG12", "PRECALC", "USHIST", "GOVT", "ARAB4", "REL4"],
        semester2_courses := ["ENG12", "PRECALC", "USHIST", "ECON", "ARAB4", "REL4"] }] }

/-- graduation_paths.py: `create_premed_path`. -/
def create_premed_path : GraduationPathPlan :=
  { path := GraduationPath.PRE_MED,
    year_plans := [
      { year := 1,
        semester1_courses := ["ENG9", "ALG1", "BIO", "ARAB1", "PE9", "REL1"],
        semester2_courses := ["ENG9", "ALG1", "BIO", "ARAB1", "PE9", "REL1"] },
      { year := 2,
        semester1_courses := ["ENG10", "GEOM", "CHEM", "WHIST", "ARAB2", "REL2"],
        semester2_courses := ["ENG10", "GEOM", "CHEM", "WHIST", "PE10", "REL2"] },
      { year := 3,
        semester1_courses := ["ENG11-AP", "ALG2", "BIO-AP", "USHIST", "ART1", "REL3"],
        semester2_courses := ["ENG11-AP", "ALG2", "BIO-AP", "USHIST", "ART1", "REL3"] },
      { year := 4,
        semester1_courses := ["ENG12-AP", "CALC-AP-AB", "CHEM-AP", "PSYCH-AP", "GOVT", "REL4"],
        semester2_courses := ["ENG12-AP", "CALC-AP-AB", "CHEM-AP", "PSYCH-AP", "ECON", "REL4"] }] }

/-- graduation_paths.py: `create_engineering_path`. -/
def create_engineering_path : GraduationPathPlan :=
  { path := GraduationPath.ENGINEERING,
    year_plans := [
      { year := 1,
        semester1_courses := ["ENG9", "ALG1", "BIO", "CSP-AP", "PE9", "REL1"],
        semester2_courses := ["ENG9", "ALG1", "BIO", "CSP-AP", "PE9", "REL1"] },
      { year := 2,
        semester1_courses := ["ENG10", "GEOM", "CHEM", "CSA-AP", "ARAB1", "REL2"],
        semester2_courses := ["ENG10", "GEOM", "CHEM", "CSA-AP", "PE10", "REL2"] },
      { year := 3,
        semester1_courses := ["ENG11", "ALG2", "PHYS-AP-1", "ROBOTICS", "ARAB2", "REL3"],
        semester2_courses := ["ENG11", "ALG2", "PHYS-AP-1", "ROBOTICS", "WHIST", "REL3"] },
      { year := 4,
        semester1_courses := ["ENG12", "CALC-AP-AB", "CHEM-AP", "ROBOTICS-ADV", "GOVT", "REL4"],
        semester2_courses := ["ENG12", "CALC-AP-AB", "CHEM-AP", "USHIST", "ECON", "REL4"] }] }

/-- graduation_paths.py: `get_all_paths()[path]` — the dict holds all
three enum values, so the lookup is total. -/
def pathPlanFor : GraduationPath → GraduationPathPlan
  | GraduationPath.MINIMUM => create_minimum_path
  | GraduationPath.PRE_MED => create_premed_path
  | GraduationPath.ENGINEERING => create_engineering_path

/- ===================== resource_calculator.py ===================== -/

/-- The three caller-supplied configuration values of
`ResourceCalculator.__init__` / `Scheduler.__init__`.  The enrollment
dict is an association list in insertion order.  Note: the constructors
store these values without any validation (resource_calculator.py lines
30-39, scheduler.py lines 102-117). -/
structure Config where
  students_per_path : List (GraduationPath × Int)
  max_class_size : Int
  periods_per_day : Int

/-- `course_demand[code][year] += n` on a
`defaultdict(lambda: defaultdict(int))`: touching a key creates its
entry (with initial value 0) even when `n = 0`. -/
def bumpDemand (m : List (String × List (Int × Int))) (code : String)
    (year : Int) (n : Int) : List (String × List (Int × Int)) :=
  match alistGet? code m with
  | some _ => m.map (fun p =>
      if p.1 = code then (p.1, alistBumpInt p.2 year n) else p)
  | none => m ++ [(code, [(year, n)])]

/-- resource_calculator.py: the demand-accumulation loop of
`calculate_sections_needed` (lines 47-53). -/
def courseDemand (cfg : Config) : List (String × List (Int × Int)) :=
  cfg.students_per_path.foldl (fun m pn =>
    (pathPlanFor pn.1).year_plans.foldl (fun m yp =>
      yp.get_all_courses.foldl (fun m code =>
        bumpDemand m code yp.year pn.2) m) m) []

/-- resource_calculator.py: `calculate_sections_needed`
(`{course_code: {year: ceil(students / max_class_size)}}`). -/
def calculate_sections_needed (cfg : Config) :
    List (String × List (Int × Int)) :=
  (courseDemand cfg).map (fun p =>
    (p.1, p.2.map (fun q => (q.1, pyCeilDiv q.2 cfg.max_class_size))))

/-- `sum(year_sections.values())`. -/
def sumValues (l : List (Int × Int)) : Int :=
  l.foldl (fun a q => a + q.2) 0

/-- resource_calculator.py: one iteration of the grouping loop of
`calculate_min_classrooms` (lines 96-104); unknown course codes are
skipped (`if not course: continue`). -/
def roomTypeStep (m : List (RoomType × Int))
    (p : String × List (Int × Int)) : List (RoomType × Int) :=
  match catalogGet p.1 with
  | none => m
  | some course =>
    alistBumpInt m course.room_type_required (sumValues p.2)

/-- resource_calculator.py: `calculate_min_classrooms`. -/
def calculate_min_classrooms (cfg : Config) : List (RoomType × Int) :=
  ((calculate_sections_needed cfg).foldl roomTypeStep []).map (fun p =>
    (p.1, pyCeilDiv p.2 cfg.periods_per_day))

/-- The `{"regular": _, "ap": _}` buckets of `calculate_min_teachers`. -/
structure LevelCounts where
  regular : Int
  ap : Int
  deriving DecidableEq, Repr

/-- `subject_sections[subject][key] += total` on a
`defaultdict(lambda: dict(regular 0, ap 0))`. -/
def bumpLevel (m : List (SubjectArea × LevelCounts)) (subj : SubjectArea)
    (isAp : Bool) (n : Int) : List (SubjectArea × LevelCounts) :=
  match alistGet? subj m with
  | some _ => m.map (fun p =>
      if p.1 = subj then
        (p.1, if isAp then { p.2 with ap := p.2.ap + n }
              else { p.2 with regular := p.2.regular + n })
      else p)
  | none => m ++ [(subj, if isAp then { regular := 0, ap := n }
                         else { regular := n, ap := 0 })]

/-- resource_calculator.py: one iteration of the subject/level grouping
loop of `calculate_min_teachers` (lines 128-135); unknown codes are
skipped. -/
def subjectStep (m : List (SubjectArea × LevelCounts))
    (p : String × List (Int × Int)) : List (SubjectArea × LevelCounts) :=
  match catalogGet p.1 with
  | none => m
  | some course =>
    bumpLevel m course.subject_area (course.level == CourseLevel.AP)
      (sumValues p.2)

/-- resource_calculator.py: the subject/level grouping of
`calculate_min_teachers`. -/
def subjectSections (cfg : Config) : List (SubjectArea × LevelCounts) :=
  (calculate_sections_needed cfg).foldl subjectStep []

/-- The `{"ap_qualified": _, "regular_only": _, "total": _}` record of
`calculate_min_teachers`. -/
structure TeacherCounts where
  ap_qualified : Int
  regular_only : Int
  total : Int
  deriving DecidableEq, Repr

/-- resource_calculator.py: the per-subject body of
`calculate_min_teachers` (lines 141-158), with
`cap = max_teaching_periods = periods_per_day - 1`. -/
def minTeachersFor (ap_sections regular_sections cap : Int) :
    TeacherCounts :=
  let ap_teachers := pyCeilDiv ap_sections cap
  let ap_teacher_capacity := ap_teachers * cap - ap_sections
  let remaining_regular := max 0 (regular_sections - ap_teacher_capacity)
  let regular_teachers := pyCeilDiv remaining_regular cap
  { ap_qualified := ap_teachers, regular_only := regular_teachers,
    total := ap_teachers + regular_teachers }

/-- resource_calculator.py: `calculate_min_teachers`. -/
def calculate_min_teachers (cfg : Config) :
    List (SubjectArea × TeacherCounts) :=
  (subjectSections cfg).map (fun p =>
    (p.1, minTeachersFor p.2.ap p.2.regular (cfg.periods_per_day - 1)))

/- ===================== scheduler.py ===================== -/

/-- Python `room_type.name` (enum member name), used for classroom ids. -/
def roomTypeName : RoomType → String
  | RoomType.GENERAL => "GENERAL"
  | RoomType.CHEMISTRY_LAB => "CHEMISTRY_LAB"
  | RoomType.BIOLOGY_LAB => "BIOLOGY_LAB"
  | RoomType.COMPUTER_LAB => "COMPUTER_LAB"
  | RoomType.ROBOTICS_LAB => "ROBOTICS_LAB"
  | RoomType.ART_ROOM => "ART_ROOM"
  | RoomType.GYM => "GYM"
  | RoomType.MUSIC_ROOM => "MUSIC_ROOM"

/-- scheduler.py: the `room_names` dict of `create_classrooms` (covers
every room type, so the `.get` default is never taken). -/
def roomTypeLabel : RoomType → String
  | RoomType.GENERAL => "Room"
  | RoomType.CHEMISTRY_LAB => "Chem Lab"
  | RoomType.BIOLOGY_LAB => "Bio Lab"
  | RoomType.COMPUTER_LAB => "Computer Lab"
  | RoomType.ROBOTICS_LAB => "Robotics Lab"
  | RoomType.ART_ROOM => "Art Room"
  | RoomType.GYM => "Gymnasium"
  | RoomType.MUSIC_ROOM => "Music Room"

/-- scheduler.py: the `subject_abbrev` dict of `create_teachers`;
`ELECTIVE` is absent from the dict and falls back to
`subject.name[:4] = "ELEC"`. -/
def subjectAbbrev : SubjectArea → String
  | SubjectArea.HISTORY_SOCIAL_SCIENCE => "HIST"
  | SubjectArea.ENGLISH => "ENG"
  | SubjectArea.MATHEMATICS => "MATH"
  | SubjectArea.LABORATORY_SCIENCE => "SCI"
  | SubjectArea.LANGUAGE_OTHER => "ARAB"
  | SubjectArea.VISUAL_PERFORMING_ARTS => "ART"
  | SubjectArea.COLLEGE_PREP_ELECTIVE => "TECH"
  | SubjectArea.PHYSICAL_EDUCATION => "PE"
  | SubjectArea.RELIGIOUS_STUDIES => "REL"
  | SubjectArea.ELECTIVE => "ELEC"

/-- scheduler.py: `Scheduler.create_classrooms` (`for i in
range(1, count + 1)`; a non-positive count yields no rooms, matching
Python `range`). -/
def create_classrooms (cfg : Config) : List Classroom :=
  (calculate_min_classrooms cfg).foldl (fun acc p =>
    acc ++ (List.range p.2.toNat).map (fun i =>
      { id := roomTypeName p.1 ++ "_" ++ toString (i + 1),
        name := roomTypeLabel p.1 ++ " " ++ toString (i + 1),
        room_type := p.1,
        capacity := cfg.max_class_size })) []

/-- scheduler.py: `Scheduler.create_teachers` — per subject, the
AP-qualified teachers first, then the regular ones, each with
`max_periods_per_day = periods_per_day - 1`. -/
def create_teachers (cfg : Config) : List Teacher :=
  (calculate_min_teachers cfg).foldl (fun acc p =>
    let abb := subjectAbbrev p.1
    let aps := (List.range p.2.ap_qualified.toNat).map (fun i =>
      { id := abb ++ "_AP_" ++ toString (i + 1),
        name := abb ++ " Teacher " ++ toString (i + 1) ++ " (AP)",
        subject_areas := [p.1],
        can_teach_ap := true,
        max_periods_per_day := cfg.periods_per_day - 1 : Teacher })
    let regs := (List.range p.2.regular_only.toNat).map (fun i =>
      { id := abb ++ "_REG_" ++ toString (i + 1),
        name := abb ++ " Teacher "
          ++ toString (i + 1 + p.2.ap_qualified.toNat),
        subject_areas := [p.1],
        can_teach_ap := false,
        max_periods_per_day := cfg.periods_per_day - 1 : Teacher })
    acc ++ aps ++ regs) []

/-- scheduler.py: `ScheduledSection` (the `student_ids` field always
keeps its default empty value in the engine). -/
structure ScheduledSection where
  course_code : String
  section_id : Nat
  period : Int
  semester : Int
  classroom_id : String
  teacher_id : String
  student_ids : List String := []
  deriving DecidableEq, Repr

/-- scheduler.py: `MasterSchedule`. -/
structure MasterSchedule where
  sections : List ScheduledSection
  classrooms : List Classroom
  teachers : List Teacher
  deriving DecidableEq, Repr

/-- scheduler.py: `MasterSchedule.get_sections_by_period`. -/
def MasterSchedule.get_sections_by_period (ms : MasterSchedule)
    (period semester : Int) : List ScheduledSection :=
  ms.sections.filter (fun s => s.period == period && s.semester == semester)

/-- `ScheduledSection.course.name`, used only inside conflict messages.
Python indexes `COURSE_CATALOG[code]` (raising `KeyError` for an unknown
code); modelled with a default that is only reachable where Python would
raise. -/
def courseNameOf (code : String) : String :=
  ((catalogGet code).map Course.name).getD ""

/-- `defaultdict(list)` grouping (`classrooms_used` / `teachers_used`):
first occurrence of a key appends a new group, later occurrences extend
it in place. -/
def groupByKey {α : Type} (key : α → String) (l : List α) :
    List (String × List α) :=
  l.foldl (fun gs x =>
    match alistGet? (key x) gs with
    | some _ => gs.map (fun g =>
        if g.1 = key x then (g.1, g.2 ++ [x]) else g)
    | none => gs ++ [(key x, [x])]) []

/-- scheduler.py: one `for ..., sections in used.items(): if len > 1:
errors.append(...)` block of `MasterSchedule.validate` (the rendering
of the course-name list inside the message differs cosmetically from
Python's list repr; only the presence of messages matters here). -/
def conflictErrors (label : String)
    (gs : List (String × List ScheduledSection)) (period semester : Int)
    (errs : List String) : List String :=
  gs.foldl (fun e g =>
    if g.2.length > 1 then
      e ++ [label ++ " conflict: " ++ g.1
        ++ " has multiple courses in period " ++ toString period
        ++ ", semester " ++ toString semester ++ ": "
        ++ String.intercalate ", " (g.2.map (fun s => courseNameOf s.course_code))]
    else e) errs

/-- scheduler.py: the body of the `for period in range(1, 7)` loop of
`MasterSchedule.validate` — group this period's sections by classroom
and by teacher, and append one error per multiply-used resource. -/
def validatePeriod (ms : MasterSchedule) (semester : Int)
    (errs : List String) (period : Int) : List String :=
  let secs := ms.get_sections_by_period period semester
  let errs := conflictErrors "Classroom"
    (groupByKey (fun s => s.classroom_id) secs) period semester errs
  conflictErrors "Teacher"
    (groupByKey (fun s => s.teacher_id) secs) period semester errs

/-- scheduler.py: the body of the `for semester in [1, 2]` loop of
`MasterSchedule.validate` — note the hard-coded `range(1, 7)`. -/
def validateSemester (ms : MasterSchedule) (errs : List String)
    (semester : Int) : List String :=
  ([1, 2, 3, 4, 5, 6] : List Int).foldl (validatePeriod ms semester) errs

/-- scheduler.py: `MasterSchedule.validate`. -/
def MasterSchedule.validate (ms : MasterSchedule) : List String :=
  ([1, 2] : List Int).foldl (validateSemester ms) []

/-- scheduler.py: `course_priority` inside `create_schedule` — unknown
codes get priority 0; the returned value is the negated weight so that
an ascending sort puts the most constrained course first. -/
def course_priority (code : String) : Int :=
  match catalogGet code with
  | none => 0
  | some course =>
    let w1 : Int := if course.level == CourseLevel.AP then 100 else 0
    let w2 : Int :=
      if course.room_type_required != RoomType.GENERAL then 50 else 0
    Neg.neg (w1 + w2)

/-- Stable insertion of `x` behind the existing elements whose key is
`≤ key x`. -/
def insertByKey (key : String → Int) (x : String) :
    List String → List String
  | [] => [x]
  | y :: ys =>
    if key y ≤ key x then y :: insertByKey key x ys else x :: y :: ys

/-- Python's `sorted(xs, key=...)`: a stable ascending sort by key
(CPython's sort is stable; any stable sort produces the same list). -/
def sortedByKey (key : String → Int) (l : List String) : List String :=
  l.foldl (fun acc x => insertByKey key x acc) []

/-- scheduler.py: `sorted_courses = sorted(sections_needed.keys(),
key=course_priority)`. -/
def sortedCoursesFor (cfg : Config) : List String :=
  sortedByKey course_priority ((calculate_sections_needed cfg).map (fun p => p.1))

/-- `range(1, periods_per_day + 1)` as a list of Python ints. -/
def periodsList (ppd : Int) : List Int :=
  (List.range ppd.toNat).map (fun i : Nat => (i : Int) + 1)

/-- The transient per-run state of `Scheduler.create_schedule`:
availability tables `classroom_available[sem][period][id]` and
`teacher_available[sem][period][id]`, the `teacher_sections` load
counter, the accumulated `scheduled_sections`, the `section_counter`,
and the console output of the `print` on line 323. -/
structure EngineState where
  room_avail : Int → Int → String → Bool
  teacher_avail : Int → Int → String → Bool
  teacher_sections : String → Int
  placed : List ScheduledSection
  counter : Nat
  printed : List String

/-- `table[sem][period][id] = False`. -/
def markUsed (f : Int → Int → String → Bool) (sem period : Int)
    (id : String) : Int → Int → String → Bool :=
  fun s p i =>
    if s = sem ∧ p = period ∧ i = id then false else f s p i

/-- scheduler.py lines 266-273: first compatible classroom marked
available in this period and semester. -/
def findAvailableRoom (st : EngineState) (sem period : Int)
    (rooms : List Classroom) : Option Classroom :=
  rooms.find? (fun r => st.room_avail sem period r.id)

/-- scheduler.py lines 276-284: first compatible teacher that is free
this period and still under `max_periods_per_day * 2` total sections. -/
def findAvailableTeacher (st : EngineState) (sem period : Int)
    (teachers : List Teacher) : Option Teacher :=
  teachers.find? (fun t =>
    st.teacher_avail sem period t.id
      && decide (st.teacher_sections t.id < t.max_periods_per_day * 2))

/-- scheduler.py lines 286-320: record the placement, mark the room and
teacher busy, bump the load counter, and for a year-long course placed
in semester 1 mirror the identical (period, room, teacher) triple into
semester 2 when both are still free there (the mirror does not bump the
load counter). -/
def placeSection (course : Course) (code : String) (room : Classroom)
    (teacher : Teacher) (sem period : Int) (st : EngineState) :
    EngineState :=
  let counter := st.counter + 1
  let sec : ScheduledSection :=
    { course_code := code, section_id := counter, period := period,
      semester := sem, classroom_id := room.id, teacher_id := teacher.id }
  let ra := markUsed st.room_avail sem period room.id
  let ta := markUsed st.teacher_avail sem period teacher.id
  let ts := fun i =>
    if i == teacher.id then st.teacher_sections i + 1
    else st.teacher_sections i
  let st1 : EngineState :=
    { room_avail := ra, teacher_avail := ta, teacher_sections := ts,
      placed := st.placed ++ [sec], counter := counter,
      printed := st.printed }
  if course.semesters == 2 && sem == 1 then
    if ra 2 period room.id && ta 2 period teacher.id then
      { st1 with
        room_avail := markUsed ra 2 period room.id,
        teacher_avail := markUsed ta 2 period teacher.id,
        placed := st1.placed ++ [{ sec with semester := 2 }] }
    else st1
  else st1

/-- scheduler.py lines 261-303: scan the periods of one semester in
increasing order and place the section unit at the first period offering
both a free compatible room and a free qualified teacher with remaining
capacity; `none` when every period fails. -/
def tryPeriods (course : Course) (code : String)
    (rooms : List Classroom) (teachers : List Teacher) (sem : Int)
    (st : EngineState) : List Int → Option EngineState
  | [] => none
  | period :: rest =>
    match findAvailableRoom st sem period rooms with
    | none => tryPeriods course code rooms teachers sem st rest
    | some room =>
      match findAvailableTeacher st sem period teachers with
      | none => tryPeriods course code rooms teachers sem st rest
      | some teacher =>
        some (placeSection course code room teacher sem period st)

/-- scheduler.py lines 257-323: one unit of `range(total_sections)` —
try the semesters the course runs in, in order, stopping at the first
success; if none succeeds, print the warning and drop the unit. -/
def scheduleUnit (course : Course) (code : String)
    (rooms : List Classroom) (teachers : List Teacher) (ppd : Int)
    (st : EngineState) : List Int → EngineState
  | [] =>
    { st with printed := st.printed
        ++ ["WARNING: Could not schedule section of " ++ course.name] }
  | sem :: rest =>
    match tryPeriods course code rooms teachers sem st (periodsList ppd) with
    | some st1 => st1
    | none => scheduleUnit course code rooms teachers ppd st rest

/-- scheduler.py lines 231-323: the per-course body of the main loop —
unknown codes are skipped; `total_sections` sums the per-year counts;
compatible rooms and teachers are pre-filtered; year-long courses may
fall back to semester 2 when semester 1 is exhausted. -/
def scheduleCourse (cfg : Config) (classrooms : List Classroom)
    (teachers : List Teacher) (sn : List (String × List (Int × Int)))
    (st : EngineState) (code : String) : EngineState :=
  match catalogGet code with
  | none => st
  | some course =>
    let total := (sumValues ((alistGet? code sn).getD [])).toNat
    let rooms := classrooms.filter (fun c => c.can_host course)
    let cteachers := teachers.filter (fun t => t.can_teach course)
    let sems : List Int := if course.semesters == 2 then [1, 2] else [1]
    (List.range total).foldl (fun st _ =>
      scheduleUnit course code rooms cteachers cfg.periods_per_day st sems) st

/-- The value produced by one run of `Scheduler.create_schedule`: the
returned `MasterSchedule` plus everything the run printed to the
console (the only trace the engine leaves of unplaceable sections). -/
structure EngineResult where
  schedule : MasterSchedule
  printed : List String

/-- scheduler.py lines 198-213: the initial availability tables (all
`True`), empty load counter, no placed sections. -/
def engineInitState : EngineState :=
  { room_avail := fun _ _ _ => true,
    teacher_avail := fun _ _ _ => true,
    teacher_sections := fun _ => 0,
    placed := [], counter := 0, printed := [] }

/-- The engine state after the main loop of `create_schedule` has
processed every course. -/
def engineFinalState (cfg : Config) : EngineState :=
  (sortedCoursesFor cfg).foldl
    (scheduleCourse cfg (create_classrooms cfg) (create_teachers cfg)
      (calculate_sections_needed cfg))
    engineInitState

/-- scheduler.py: `Scheduler.create_schedule`. -/
def create_schedule (cfg : Config) : EngineResult :=
  { schedule :=
      { sections := (engineFinalState cfg).placed,
        classrooms := create_classrooms cfg,
        teachers := create_teachers cfg },
    printed := (engineFinalState cfg).printed }

/- ===================== generic lemmas ===================== -/

theorem foldl_preserve {α β : Type} (P : α → Prop) (f : α → β → α)
    (l : List β) (h : ∀ a b, b ∈ l → P a → P (f a b)) (a : α)
    (ha : P a) : P (l.foldl f a) := by
  induction l generalizing a with
  | nil => exact ha
  | cons x xs ih =>
    exact ih (fun a b hb => h a b (List.mem_cons_of_mem x hb))
      (f a x) (h a x (List.mem_cons_self x xs) ha)

theorem alistGet?_append {α β : Type} [DecidableEq α] (k : α)
    (l₁ l₂ : List (α × β)) :
    alistGet? k (l₁ ++ l₂) =
      match alistGet? k l₁ with
      | some v => some v
      | none => alistGet? k l₂ := by
  induction l₁ with
  | nil => simp [alistGet?]
  | cons p l ih =>
    by_cases h : p.1 = k <;> simp [alistGet?, h, ih]

theorem alistGet?_cons {α β : Type} [DecidableEq α] (k : α) (p : α × β)
    (l : List (α × β)) :
    alistGet? k (p :: l) =
      if p.1 = k then some p.2 else alistGet? k l := rfl

theorem alistGet?_mapUpdate {α β : Type} [DecidableEq α] (k₀ k : α)
    (f : β → β) (l : List (α × β)) :
    alistGet? k (l.map (fun g => if g.1 = k₀ then (g.1, f g.2) else g)) =
      if k = k₀ then (alistGet? k l).map f else alistGet? k l := by
  induction l with
  | nil => by_cases h : k = k₀ <;> simp [alistGet?, h]
  | cons p l ih =>
    rw [List.map_cons, alistGet?_cons, alistGet?_cons]
    by_cases h1 : p.1 = k₀
    · rw [if_pos h1]
      by_cases h3 : k = k₀
      · have h2 : p.1 = k := by rw [h1, h3]
        simp [h2, h3]
      · have h2 : ¬ (p.1 = k) := by rw [h1]; exact fun he => h3 he.symm
        simp only [if_neg h2, if_neg h3, ih]
    · rw [if_neg h1]
      by_cases h2 : p.1 = k
      · have h3 : ¬ (k = k₀) := fun he => h1 (h2.trans he)
        simp only [if_pos h2, if_neg h3]
      · simp only [if_neg h2, ih]

theorem alistGet?_eq_none_iff {α β : Type} [DecidableEq α] (k : α)
    (l : List (α × β)) :
    alistGet? k l = none ↔ k ∉ l.map Prod.fst := by
  induction l with
  | nil => simp [alistGet?]
  | cons p l ih =>
    rw [alistGet?_cons]
    by_cases h : p.1 = k
    · simp [h]
    · simp only [if_neg h, ih, List.map_cons, List.mem_cons]
      constructor
      · intro hh
        rintro (he | he)
        · exact h he.symm
        · exact hh he
      · intro hh he
        exact hh (Or.inr he)

theorem alistGet?_of_mem_nodup {α β : Type} [DecidableEq α]
    {l : List (α × β)} {g : α × β} (hn : (l.map Prod.fst).Nodup)
    (hm : g ∈ l) : alistGet? g.1 l = some g.2 := by
  induction l with
  | nil => cases hm
  | cons p l ih =>
    rw [alistGet?_cons]
    rcases List.mem_cons.mp hm with h | h
    · subst h; simp
    · have hp : ¬ (p.1 = g.1) := by
        intro he
        exact (List.nodup_cons.mp hn).1 (he ▸ List.mem_map_of_mem Prod.fst h)
      rw [if_neg hp]
      exact ih (List.nodup_cons.mp hn).2 h

theorem alistGet?_mem {α β : Type} [DecidableEq α] {k : α} {v : β}
    {l : List (α × β)} (h : alistGet? k l = some v) : (k, v) ∈ l := by
  induction l with
  | nil => simp [alistGet?] at h
  | cons p l ih =>
    rw [alistGet?_cons] at h
    by_cases hp : p.1 = k
    · rw [if_pos hp] at h
      have hpv : p = (k, v) := by
        cases p
        simp only [Option.some_inj] at h
        simp_all
      exact hpv ▸ List.mem_cons_self _ _
    · rw [if_neg hp] at h
      exact List.mem_cons_of_mem p (ih h)

theorem length_filter_le_one_of_pairwise_key {α : Type}
    {key : α → String} {l : List α}
    (hp : l.Pairwise (fun a b => key a ≠ key b)) (k : String) :
    (l.filter (fun x => key x == k)).length ≤ 1 := by
  have hf : (l.filter (fun x => key x == k)).Pairwise
      (fun a b => key a ≠ key b) :=
    hp.sublist (List.filter_sublist l)
  match hfl : l.filter (fun x => key x == k) with
  | [] => simp
  | [_] => simp
  | a :: b :: r =>
    exfalso
    rw [hfl] at hf
    have hab : key a ≠ key b := (List.pairwise_cons.mp hf).1 b (by simp)
    have hma : a ∈ l.filter (fun x => key x == k) := by rw [hfl]; simp
    have hmb : b ∈ l.filter (fun x => key x == k) := by rw [hfl]; simp
    have ha : key a == k := (List.mem_filter.mp hma).2
    have hb : key b == k := (List.mem_filter.mp hmb).2
    exact hab (by rw [beq_iff_eq] at ha hb; rw [ha, hb])

/- ============ engine invariants (for C1, C3, C10) ============ -/

/-- Spec §3 invariant 1: no two scheduled sections share
(classroom id, period, semester). -/
def no_shared_room_slot (l : List ScheduledSection) : Prop :=
  l.Pairwise (fun a b =>
    ¬(a.classroom_id = b.classroom_id ∧ a.period = b.period ∧
      a.semester = b.semester))

/-- Spec §3 invariant 2: no two scheduled sections share
(teacher id, period, semester). -/
def no_shared_teacher_slot (l : List ScheduledSection) : Prop :=
  l.Pairwise (fun a b =>
    ¬(a.teacher_id = b.teacher_id ∧ a.period = b.period ∧
      a.semester = b.semester))

/-- Inductive invariant of the placement loop: the availability tables
are `false` on every occupied slot, no slot is double-booked, every
placed section has a legal semester and period, single-semester courses
sit in semester 1, and the load counter respects the bound `M`. -/
def EngineInv (ppd M : Int) (st : EngineState) : Prop :=
  (∀ s ∈ st.placed, st.room_avail s.semester s.period s.classroom_id = false) ∧
  (∀ s ∈ st.placed, st.teacher_avail s.semester s.period s.teacher_id = false) ∧
  no_shared_room_slot st.placed ∧
  no_shared_teacher_slot st.placed ∧
  (∀ s ∈ st.placed,
    (s.semester = 1 ∨ s.semester = 2) ∧ s.period ∈ periodsList ppd) ∧
  (∀ s ∈ st.placed, ∀ c, catalogGet s.course_code = some c →
    c.semesters = 1 → s.semester = 1) ∧
  (∀ id, st.teacher_sections id ≤ M)

theorem markUsed_self (f : Int → Int → String → Bool) (sem p : Int)
    (id : String) : markUsed f sem p id sem p id = false := by
  simp [markUsed]

theorem markUsed_false {f : Int → Int → String → Bool}
    {sem p : Int} {id : String} {s q : Int} {i : String}
    (h : f s q i = false) : markUsed f sem p id s q i = false := by
  unfold markUsed
  split
  · rfl
  · exact h

theorem markUsed_true {f : Int → Int → String → Bool}
    {sem p : Int} {id : String} {s q : Int} {i : String}
    (h : markUsed f sem p id s q i = true) :
    f s q i = true ∧ ¬(s = sem ∧ q = p ∧ i = id) := by
  unfold markUsed at h
  split at h
  · exact absurd h (by simp)
  · exact ⟨h, by assumption⟩

theorem placeSection_inv {ppd M : Int} {course : Course} {code : String}
    {room : Classroom} {teacher : Teacher} {sem period : Int}
    {st : EngineState}
    (hr : st.room_avail sem period room.id = true)
    (ht : st.teacher_avail sem period teacher.id = true)
    (hlt : st.teacher_sections teacher.id < teacher.max_periods_per_day * 2)
    (hM : teacher.max_periods_per_day * 2 ≤ M)
    (hsem : sem = 1 ∨ sem = 2)
    (hper : period ∈ periodsList ppd)
    (hcode : catalogGet code = some course)
    (hsem1 : course.semesters = 1 → sem = 1)
    (hinv : EngineInv ppd M st) :
    EngineInv ppd M (placeSection course code room teacher sem period st) := by
  obtain ⟨hR, hT, hPR, hPT, hRange, hSem, hLoad⟩ := hinv
  have hsec : ∀ s : ScheduledSection,
      s = { course_code := code, section_id := st.counter + 1,
            period := period, semester := sem, classroom_id := room.id,
            teacher_id := teacher.id } →
      s.semester = sem ∧ s.period = period ∧ s.classroom_id = room.id ∧
      s.teacher_id = teacher.id ∧ s.course_code = code := by
    rintro s rfl; exact ⟨rfl, rfl, rfl, rfl, rfl⟩
  unfold placeSection
  dsimp only
  set sec : ScheduledSection :=
    { course_code := code, section_id := st.counter + 1, period := period,
      semester := sem, classroom_id := room.id, teacher_id := teacher.id }
    with hsecdef
  have hsecP := hsec sec hsecdef
  set ra := markUsed st.room_avail sem period room.id with hra
  set ta := markUsed st.teacher_avail sem period teacher.id with hta
  have hR1 : ∀ s ∈ st.placed ++ [sec],
      ra s.semester s.period s.classroom_id = false := by
    intro s hs
    rcases List.mem_append.mp hs with h | h
    · exact markUsed_false (hR s h)
    · rcases List.mem_singleton.mp h with rfl
      rw [hsecP.1, hsecP.2.1, hsecP.2.2.1]
      exact markUsed_self _ _ _ _
  have hT1 : ∀ s ∈ st.placed ++ [sec],
      ta s.semester s.period s.teacher_id = false := by
    intro s hs
    rcases List.mem_append.mp hs with h | h
    · exact markUsed_false (hT s h)
    · rcases List.mem_singleton.mp h with rfl
      rw [hsecP.1, hsecP.2.1, hsecP.2.2.2.1]
      exact markUsed_self _ _ _ _
  have hPR1 : no_shared_room_slot (st.placed ++ [sec]) := by
    rw [no_shared_room_slot, List.pairwise_append]
    refine ⟨hPR, List.pairwise_singleton _ _, ?_⟩
    intro a ha b hb hcl
    rcases List.mem_singleton.mp hb with rfl
    have hfalse := hR a ha
    rw [hcl.2.2, hcl.2.1, hcl.1, hsecP.1, hsecP.2.1, hsecP.2.2.1] at hfalse
    rw [hfalse] at hr
    simp at hr
  have hPT1 : no_shared_teacher_slot (st.placed ++ [sec]) := by
    rw [no_shared_teacher_slot, List.pairwise_append]
    refine ⟨hPT, List.pairwise_singleton _ _, ?_⟩
    intro a ha b hb hcl
    rcases List.mem_singleton.mp hb with rfl
    have hfalse := hT a ha
    rw [hcl.2.2, hcl.2.1, hcl.1, hsecP.1, hsecP.2.1, hsecP.2.2.2.1] at hfalse
    rw [hfalse] at ht
    simp at ht
  have hRange1 : ∀ s ∈ st.placed ++ [sec],
      (s.semester = 1 ∨ s.semester = 2) ∧ s.period ∈ periodsList ppd := by
    intro s hs
    rcases List.mem_append.mp hs with h | h
    · exact hRange s h
    · rcases List.mem_singleton.mp h with rfl
      rw [hsecP.1, hsecP.2.1]
      exact ⟨hsem, hper⟩
  have hSem1 : ∀ s ∈ st.placed ++ [sec], ∀ c,
      catalogGet s.course_code = some c → c.semesters = 1 →
      s.semester = 1 := by
    intro s hs c hc h1
    rcases List.mem_append.mp hs with h | h
    · exact hSem s h c hc h1
    · rcases List.mem_singleton.mp h with rfl
      rw [hsecP.2.2.2.2] at hc
      rw [hcode] at hc
      rw [hsecP.1]
      exact hsem1 ((Option.some_inj.mp hc) ▸ h1)
  have hLoad1 : ∀ id,
      (fun i => if (i == teacher.id) = true then st.teacher_sections i + 1
                else st.teacher_sections i) id ≤ M := by
    intro id
    dsimp only
    by_cases h : id = teacher.id
    · subst h
      simp only [beq_self_eq_true, if_true]
      omega
    · have hb : (id == teacher.id) = false := by simp [h]
      rw [hb]
      simp only [Bool.false_eq_true, if_false]
      exact hLoad id
  split
  · -- year-long course placed in semester 1: the mirror branch
    rename_i hyear
    have hsem1' : sem = 1 := by
      have h2 := ((Bool.and_eq_true _ _).mp hyear).2
      rwa [beq_iff_eq] at h2
    have hy2 : course.semesters = 2 := by
      have h2 := ((Bool.and_eq_true _ _).mp hyear).1
      rwa [beq_iff_eq] at h2
    split
    · -- mirror succeeds
      rename_i hfree
      obtain ⟨hfr, hft⟩ := (Bool.and_eq_true _ _).mp hfree
      have hroom2 : st.room_avail 2 period room.id = true :=
        (markUsed_true hfr).1
      have hteach2 : st.teacher_avail 2 period teacher.id = true :=
        (markUsed_true hft).1
      have hmir : ∀ s : ScheduledSection, s = { sec with semester := 2 } →
          s.semester = 2 ∧ s.period = period ∧ s.classroom_id = room.id ∧
          s.teacher_id = teacher.id ∧ s.course_code = code := by
        rintro s rfl
        refine ⟨rfl, ?_, ?_, ?_, ?_⟩
        · exact hsecP.2.1
        · exact hsecP.2.2.1
        · exact hsecP.2.2.2.1
        · exact hsecP.2.2.2.2
      refine ⟨?_, ?_, ?_, ?_, ?_, ?_, hLoad1⟩
      · intro s hs
        rcases List.mem_append.mp hs with h | h
        · exact markUsed_false (hR1 s h)
        · rcases List.mem_singleton.mp h with rfl
          rw [(hmir _ rfl).1, (hmir _ rfl).2.1, (hmir _ rfl).2.2.1]
          exact markUsed_self _ _ _ _
      · intro s hs
        rcases List.mem_append.mp hs with h | h
        · exact markUsed_false (hT1 s h)
        · rcases List.mem_singleton.mp h with rfl
          rw [(hmir _ rfl).1, (hmir _ rfl).2.1, (hmir _ rfl).2.2.2.1]
          exact markUsed_self _ _ _ _
      · rw [no_shared_room_slot, List.pairwise_append]
        refine ⟨hPR1, List.pairwise_singleton _ _, ?_⟩
        intro a ha b hb hcl
        rcases List.mem_singleton.mp hb with rfl
        rw [(hmir _ rfl).1, (hmir _ rfl).2.1, (hmir _ rfl).2.2.1] at hcl
        rcases List.mem_append.mp ha with h | h
        · have hfalse := hR a h
          rw [hcl.2.2, hcl.2.1, hcl.1] at hfalse
          rw [hfalse] at hroom2
          simp at hroom2
        · rcases List.mem_singleton.mp h with rfl
          have hx := hcl.2.2
          rw [hsecP.1, hsem1'] at hx
          exact absurd hx (by decide)
      · rw [no_shared_teacher_slot, List.pairwise_append]
        refine ⟨hPT1, List.pairwise_singleton _ _, ?_⟩
        intro a ha b hb hcl
        rcases List.mem_singleton.mp hb with rfl
        rw [(hmir _ rfl).1, (hmir _ rfl).2.1, (hmir _ rfl).2.2.2.1] at hcl
        rcases List.mem_append.mp ha with h | h
        · have hfalse := hT a h
          rw [hcl.2.2, hcl.2.1, hcl.1] at hfalse
          rw [hfalse] at hteach2
          simp at hteach2
        · rcases List.mem_singleton.mp h with rfl
          have hx := hcl.2.2
          rw [hsecP.1, hsem1'] at hx
          exact absurd hx (by decide)
      · intro s hs
        rcases List.mem_append.mp hs with h | h
        · exact hRange1 s h
        · rcases List.mem_singleton.mp h with rfl
          rw [(hmir _ rfl).1, (hmir _ rfl).2.1]
          exact ⟨Or.inr rfl, hper⟩
      · intro s hs c hc h1
        rcases List.mem_append.mp hs with h | h
        · exact hSem1 s h c hc h1
        · rcases List.mem_singleton.mp h with rfl
          exfalso
          rw [(hmir _ rfl).2.2.2.2, hcode] at hc
          rw [(Option.some_inj.mp hc).symm, hy2] at h1
          exact absurd h1 (by decide)
    · exact ⟨hR1, hT1, hPR1, hPT1, hRange1, hSem1, hLoad1⟩
  · exact ⟨hR1, hT1, hPR1, hPT1, hRange1, hSem1, hLoad1⟩

theorem tryPeriods_inv {ppd M : Int} {course : Course} {code : String}
    {rooms : List Classroom} {teachers : List Teacher} {sem : Int}
    {st st' : EngineState} (periods : List Int)
    (hsub : ∀ p ∈ periods, p ∈ periodsList ppd)
    (hTmax : ∀ t ∈ teachers, t.max_periods_per_day * 2 ≤ M)
    (hcode : catalogGet code = some course)
    (hsem1 : course.semesters = 1 → sem = 1)
    (hsem : sem = 1 ∨ sem = 2)
    (h : tryPeriods course code rooms teachers sem st periods = some st')
    (hinv : EngineInv ppd M st) : EngineInv ppd M st' := by
  induction periods with
  | nil => simp [tryPeriods] at h
  | cons p rest ih =>
    rw [tryPeriods] at h
    cases hfr : findAvailableRoom st sem p rooms with
    | none =>
      rw [hfr] at h
      exact ih (fun q hq => hsub q (List.mem_cons_of_mem p hq)) h
    | some room =>
      rw [hfr] at h
      cases hft : findAvailableTeacher st sem p teachers with
      | none =>
        rw [hft] at h
        exact ih (fun q hq => hsub q (List.mem_cons_of_mem p hq)) h
      | some teacher =>
        rw [hft] at h
        have hst' := Option.some_inj.mp h
        have hfr2 : List.find? (fun r => st.room_avail sem p r.id) rooms
            = some room := hfr
        have hr0 := List.find?_some hfr2
        have hr : st.room_avail sem p room.id = true := hr0
        have hft2 : List.find? (fun t =>
            st.teacher_avail sem p t.id &&
              decide (st.teacher_sections t.id <
                t.max_periods_per_day * 2)) teachers = some teacher := hft
        have htpred0 := List.find?_some hft2
        have htpred : (st.teacher_avail sem p teacher.id &&
            decide (st.teacher_sections teacher.id <
              teacher.max_periods_per_day * 2)) = true := htpred0
        rw [Bool.and_eq_true] at htpred
        have ht : st.teacher_avail sem p teacher.id = true := htpred.1
        have hlt : st.teacher_sections teacher.id <
            teacher.max_periods_per_day * 2 :=
          of_decide_eq_true htpred.2
        have hmem : teacher ∈ teachers := List.mem_of_find?_eq_some hft2
        exact hst' ▸ placeSection_inv hr ht hlt (hTmax teacher hmem) hsem
          (hsub p (List.mem_cons_self p rest)) hcode hsem1 hinv

theorem scheduleUnit_inv {ppd M : Int} {course : Course} {code : String}
    {rooms : List Classroom} {teachers : List Teacher}
    {st : EngineState} (sems : List Int)
    (hsems : ∀ x ∈ sems, x = 1 ∨ x = 2)
    (hsem1s : ∀ x ∈ sems, course.semesters = 1 → x = 1)
    (hTmax : ∀ t ∈ teachers, t.max_periods_per_day * 2 ≤ M)
    (hcode : catalogGet code = some course)
    (hinv : EngineInv ppd M st) :
    EngineInv ppd M (scheduleUnit course code rooms teachers ppd st sems) := by
  induction sems generalizing st with
  | nil => exact hinv
  | cons sem rest ih =>
    rw [scheduleUnit]
    cases htp : tryPeriods course code rooms teachers sem st
        (periodsList ppd) with
    | some st1 =>
      exact tryPeriods_inv (periodsList ppd) (fun q hq => hq) hTmax hcode
        (hsem1s sem (List.mem_cons_self sem rest))
        (hsems sem (List.mem_cons_self sem rest)) htp hinv
    | none =>
      exact ih (fun x hx => hsems x (List.mem_cons_of_mem sem hx))
        (fun x hx => hsem1s x (List.mem_cons_of_mem sem hx)) hinv

theorem scheduleCourse_inv {ppd M : Int} {cfg : Config}
    {classrooms : List Classroom} {teachers : List Teacher}
    {sn : List (String × List (Int × Int))} {st : EngineState}
    (code : String) (hppd : cfg.periods_per_day = ppd)
    (hTmax : ∀ t ∈ teachers, t.max_periods_per_day * 2 ≤ M)
    (hinv : EngineInv ppd M st) :
    EngineInv ppd M (scheduleCourse cfg classrooms teachers sn st code) := by
  rw [scheduleCourse]
  cases hc : catalogGet code with
  | none => exact hinv
  | some course =>
    apply foldl_preserve (EngineInv ppd M) _ _ _ _ hinv
    intro a b _ ha
    rw [← hppd]
    apply scheduleUnit_inv _ _ _
      (fun t ht => hTmax t (List.mem_of_mem_filter ht)) hc (hppd ▸ ha)
    · intro x hx
      split at hx
      · simp only [List.mem_cons, List.not_mem_nil, or_false] at hx
        rcases hx with rfl | rfl
        · exact Or.inl rfl
        · exact Or.inr rfl
      · simp only [List.mem_cons, List.not_mem_nil, or_false] at hx
        exact Or.inl hx
    · intro x hx h1
      split at hx
      · rename_i hcond
        rw [beq_iff_eq] at hcond
        rw [h1] at hcond
        exact absurd hcond (by decide)
      · simp only [List.mem_cons, List.not_mem_nil, or_false] at hx
        exact hx

/-- Every teacher built by `create_teachers` gets
`max_periods_per_day = periods_per_day - 1` (scheduler.py lines 176 and
187). -/
theorem create_teachers_max (cfg : Config) :
    ∀ t ∈ create_teachers cfg,
      t.max_periods_per_day = cfg.periods_per_day - 1 := by
  rw [create_teachers]
  refine foldl_preserve
    (fun l : List Teacher =>
      ∀ t ∈ l, t.max_periods_per_day = cfg.periods_per_day - 1)
    _ _ ?_ _ ?_
  · intro acc p _ hacc t ht
    rcases List.mem_append.mp ht with h | h
    · rcases List.mem_append.mp h with h2 | h2
      · exact hacc t h2
      · rcases List.mem_map.mp h2 with ⟨i, _, rfl⟩
        rfl
    · rcases List.mem_map.mp h with ⟨i, _, rfl⟩
      rfl
  · intro t ht
    cases ht

theorem engineInitState_inv (ppd M : Int) (hM : 0 ≤ M) :
    EngineInv ppd M engineInitState := by
  refine ⟨?_, ?_, ?_, ?_, ?_, ?_, ?_⟩ <;>
    first
      | exact fun s hs => absurd hs (List.not_mem_nil s)
      | exact List.Pairwise.nil
      | exact fun _ => hM

theorem engineFinalState_inv (cfg : Config) :
    EngineInv cfg.periods_per_day (max 0 ((cfg.periods_per_day - 1) * 2))
      (engineFinalState cfg) := by
  rw [engineFinalState]
  apply foldl_preserve _ _ _ _ _
    (engineInitState_inv _ _ (le_max_left _ _))
  intro a code _ ha
  apply scheduleCourse_inv code rfl _ ha
  intro t ht
  have hmax := create_teachers_max cfg t ht
  rw [hmax]
  exact le_max_right _ _

/- ============ validate characterisation (for C1, C5) ============ -/

theorem foldl_guard_nil_iff {γ : Type} (q : γ → Prop) [DecidablePred q]
    (msg : γ → String) (gs : List γ) : ∀ errs : List String,
    gs.foldl (fun e g => if q g then e ++ [msg g] else e) errs = [] ↔
      errs = [] ∧ ∀ g ∈ gs, ¬ q g := by
  induction gs with
  | nil => intro errs; simp
  | cons g rest ih =>
    intro errs
    rw [List.foldl_cons, ih]
    by_cases hq : q g
    · rw [if_pos hq]
      constructor
      · rintro ⟨hnil, _⟩
        exact absurd hnil (by simp)
      · rintro ⟨_, hall⟩
        exact absurd hq (hall g (List.mem_cons_self g rest))
    · rw [if_neg hq]
      constructor
      · rintro ⟨hnil, hall⟩
        refine ⟨hnil, ?_⟩
        intro x hx
        rcases List.mem_cons.mp hx with rfl | hx
        · exact hq
        · exact hall x hx
      · rintro ⟨hnil, hall⟩
        exact ⟨hnil, fun x hx => hall x (List.mem_cons_of_mem g hx)⟩

theorem foldl_step_nil_iff {γ : Type} (f : List String → γ → List String)
    (Q : γ → Prop) (hf : ∀ e g, f e g = [] ↔ e = [] ∧ Q g)
    (l : List γ) : ∀ e : List String,
    l.foldl f e = [] ↔ e = [] ∧ ∀ g ∈ l, Q g := by
  induction l with
  | nil => intro e; simp
  | cons g rest ih =>
    intro e
    rw [List.foldl_cons, ih, hf]
    constructor
    · rintro ⟨⟨he, hq⟩, hall⟩
      refine ⟨he, ?_⟩
      intro x hx
      rcases List.mem_cons.mp hx with rfl | hx
      · exact hq
      · exact hall x hx
    · rintro ⟨he, hall⟩
      exact ⟨⟨he, hall g (List.mem_cons_self g rest)⟩,
        fun x hx => hall x (List.mem_cons_of_mem g hx)⟩

theorem conflictErrors_nil_iff (label : String)
    (gs : List (String × List ScheduledSection)) (period semester : Int)
    (errs : List String) :
    conflictErrors label gs period semester errs = [] ↔
      errs = [] ∧ ∀ g ∈ gs, ¬ (g.2.length > 1) := by
  rw [conflictErrors]
  exact foldl_guard_nil_iff (fun g => g.2.length > 1) _ gs errs

theorem mapUpdate_keys {α β : Type} [DecidableEq α] (k₀ : α) (f : β → β)
    (l : List (α × β)) :
    (l.map (fun g => if g.1 = k₀ then (g.1, f g.2) else g)).map Prod.fst
      = l.map Prod.fst := by
  induction l with
  | nil => rfl
  | cons p rest ih =>
    by_cases h : p.1 = k₀ <;> simp [h, ih]

theorem groupByKey_snoc {α : Type} (key : α → String) (l : List α)
    (x : α) :
    groupByKey key (l ++ [x]) =
      match alistGet? (key x) (groupByKey key l) with
      | some _ => (groupByKey key l).map (fun g =>
          if g.1 = key x then (g.1, g.2 ++ [x]) else g)
      | none => groupByKey key l ++ [(key x, [x])] := by
  rw [groupByKey, groupByKey, List.foldl_append]
  rfl

theorem groupByKey_keys_nodup {α : Type} (key : α → String)
    (l : List α) : ((groupByKey key l).map Prod.fst).Nodup := by
  induction l using List.reverseRecOn with
  | nil => simp [groupByKey]
  | append_singleton l x ih =>
    rw [groupByKey_snoc]
    cases h : alistGet? (key x) (groupByKey key l) with
    | some v =>
      have hkeys := mapUpdate_keys (key x) (fun v => v ++ [x])
        (groupByKey key l)
      rw [hkeys]
      exact ih
    | none =>
      rw [List.map_append]
      rw [List.nodup_append]
      refine ⟨ih, List.nodup_singleton _, ?_⟩
      intro a ha hb
      rcases List.mem_singleton.mp hb with rfl
      exact (alistGet?_eq_none_iff _ _).mp h ha

theorem groupByKey_lookup {α : Type} [DecidableEq α] (key : α → String)
    (l : List α) (k : String) :
    alistGet? k (groupByKey key l) =
      if l.filter (fun x => key x == k) = [] then none
      else some (l.filter (fun x => key x == k)) := by
  induction l using List.reverseRecOn with
  | nil => simp [groupByKey, alistGet?]
  | append_singleton l x ih =>
    rw [groupByKey_snoc]
    cases hg : alistGet? (key x) (groupByKey key l) with
    | some v =>
      rw [List.filter_append]
      have hmap := alistGet?_mapUpdate (key x) k (fun v => v ++ [x])
        (groupByKey key l)
      rw [hmap]
      by_cases hk : k = key x
      · subst hk
        rw [if_pos rfl]
        have hne : ¬ (List.filter (fun y => key y == key x) l = []) := by
          intro hnil
          rw [ih, if_pos hnil] at hg
          exact Option.noConfusion hg
        rw [ih, if_neg hne]
        simp
      · rw [if_neg hk, ih]
        have hkx : (key x == k) = false := by
          simp only [beq_eq_false_iff_ne, ne_eq]
          exact fun he => hk he.symm
        simp [hkx]
    | none =>
      rw [List.filter_append]
      rw [alistGet?_append, ih]
      by_cases hk : k = key x
      · subst hk
        have hnil : List.filter (fun y => key y == key x) l = [] := by
          by_contra hne
          rw [ih, if_neg hne] at hg
          exact Option.noConfusion hg
        rw [hnil]
        simp [alistGet?]
      · have hkx : (key x == k) = false := by
          simp only [beq_eq_false_iff_ne, ne_eq]
          exact fun he => hk he.symm
        have hne2 : ¬ (key x = k) := fun he => hk he.symm
        cases hfl : List.filter (fun y => key y == k) l with
        | nil => simp [hkx, alistGet?, hne2]
        | cons a r => simp [hkx]

theorem groupByKey_mem_filter {α : Type} [DecidableEq α]
    {key : α → String} {l : List α}
    {g : String × List α} (hg : g ∈ groupByKey key l) :
    g.2 = l.filter (fun x => key x == g.1) := by
  have h1 := alistGet?_of_mem_nodup (groupByKey_keys_nodup key l) hg
  rw [groupByKey_lookup] at h1
  by_cases hf : l.filter (fun x => key x == g.1) = []
  · rw [if_pos hf] at h1
    cases h1
  · rw [if_neg hf] at h1
    exact (Option.some_inj.mp h1).symm

theorem groupByKey_small_of_counts {α : Type} [DecidableEq α]
    (key : α → String) (l : List α)
    (h : ∀ k, (l.filter (fun x => key x == k)).length ≤ 1) :
    ∀ g ∈ groupByKey key l, g.2.length ≤ 1 := by
  intro g hg
  rw [groupByKey_mem_filter hg]
  exact h g.1

theorem counts_of_groupByKey_small {α : Type} [DecidableEq α]
    (key : α → String) (l : List α)
    (h : ∀ g ∈ groupByKey key l, g.2.length ≤ 1) :
    ∀ k, (l.filter (fun x => key x == k)).length ≤ 1 := by
  intro k
  cases hf : l.filter (fun x => key x == k) with
  | nil => simp
  | cons a r =>
    have hlook : alistGet? k (groupByKey key l)
        = some (l.filter (fun x => key x == k)) := by
      rw [groupByKey_lookup, if_neg (by rw [hf]; simp)]
    have hmem := alistGet?_mem hlook
    have := h _ hmem
    rw [← hf]
    exact this

/-- No classroom and no teacher is recorded twice among the sections of
one (period, semester) cell. -/
def slot_ok (ms : MasterSchedule) (period semester : Int) : Prop :=
  (∀ g ∈ groupByKey (fun s => s.classroom_id)
      (ms.get_sections_by_period period semester), g.2.length ≤ 1) ∧
  (∀ g ∈ groupByKey (fun s => s.teacher_id)
      (ms.get_sections_by_period period semester), g.2.length ≤ 1)

theorem validatePeriod_nil_iff (ms : MasterSchedule) (sem : Int)
    (errs : List String) (p : Int) :
    validatePeriod ms sem errs p = [] ↔ errs = [] ∧ slot_ok ms p sem := by
  rw [validatePeriod]
  rw [conflictErrors_nil_iff, conflictErrors_nil_iff]
  unfold slot_ok
  constructor
  · rintro ⟨⟨he, hc⟩, ht⟩
    exact ⟨he, fun g hg => Nat.not_lt.mp (hc g hg),
      fun g hg => Nat.not_lt.mp (ht g hg)⟩
  · rintro ⟨he, hc, ht⟩
    exact ⟨⟨he, fun g hg => Nat.not_lt.mpr (hc g hg)⟩,
      fun g hg => Nat.not_lt.mpr (ht g hg)⟩

theorem validateSemester_nil_iff (ms : MasterSchedule)
    (errs : List String) (sem : Int) :
    validateSemester ms errs sem = [] ↔
      errs = [] ∧ ∀ p ∈ ([1, 2, 3, 4, 5, 6] : List Int), slot_ok ms p sem :=
  foldl_step_nil_iff (validatePeriod ms sem) (fun p => slot_ok ms p sem)
    (fun e p => validatePeriod_nil_iff ms sem e p) _ errs

theorem validate_nil_iff (ms : MasterSchedule) :
    ms.validate = [] ↔
      ∀ sem ∈ ([1, 2] : List Int), ∀ p ∈ ([1, 2, 3, 4, 5, 6] : List Int),
        slot_ok ms p sem := by
  rw [MasterSchedule.validate]
  rw [foldl_step_nil_iff (validateSemester ms)
    (fun sem => ∀ p ∈ ([1, 2, 3, 4, 5, 6] : List Int), slot_ok ms p sem)
    (fun e sem => validateSemester_nil_iff ms e sem) _ []]
  simp

theorem pairwise_room_key_of_no_shared {l : List ScheduledSection}
    {p sem : Int} (h : no_shared_room_slot l) :
    (l.filter (fun s => s.period == p && s.semester == sem)).Pairwise
      (fun a b => a.classroom_id ≠ b.classroom_id) := by
  have hsl : List.Sublist
      (l.filter (fun s => s.period == p && s.semester == sem)) l :=
    List.filter_sublist l
  have hsub := List.Pairwise.sublist hsl h
  refine List.Pairwise.imp_of_mem ?_ hsub
  intro a b ha hb hR heq
  have hpa := (List.mem_filter.mp ha).2
  have hpb := (List.mem_filter.mp hb).2
  rw [Bool.and_eq_true, beq_iff_eq, beq_iff_eq] at hpa hpb
  exact hR ⟨heq, hpa.1.trans hpb.1.symm, hpa.2.trans hpb.2.symm⟩

theorem pairwise_teacher_key_of_no_shared {l : List ScheduledSection}
    {p sem : Int} (h : no_shared_teacher_slot l) :
    (l.filter (fun s => s.period == p && s.semester == sem)).Pairwise
      (fun a b => a.teacher_id ≠ b.teacher_id) := by
  have hsl : List.Sublist
      (l.filter (fun s => s.period == p && s.semester == sem)) l :=
    List.filter_sublist l
  have hsub := List.Pairwise.sublist hsl h
  refine List.Pairwise.imp_of_mem ?_ hsub
  intro a b ha hb hR heq
  have hpa := (List.mem_filter.mp ha).2
  have hpb := (List.mem_filter.mp hb).2
  rw [Bool.and_eq_true, beq_iff_eq, beq_iff_eq] at hpa hpb
  exact hR ⟨heq, hpa.1.trans hpb.1.symm, hpa.2.trans hpb.2.symm⟩

theorem slot_ok_of_no_shared (ms : MasterSchedule)
    (hroom : no_shared_room_slot ms.sections)
    (hteach : no_shared_teacher_slot ms.sections) (p sem : Int) :
    slot_ok ms p sem := by
  constructor
  · apply groupByKey_small_of_counts
    intro k
    exact length_filter_le_one_of_pairwise_key
      (pairwise_room_key_of_no_shared hroom) k
  · apply groupByKey_small_of_counts
    intro k
    exact length_filter_le_one_of_pairwise_key
      (pairwise_teacher_key_of_no_shared hteach) k

/- ===================== claims ===================== -/

/-- Configuration used as concrete instantiation in several witnesses:
one path with one student, the default class size and six periods. -/
def cfgM1 : Config :=
  { students_per_path := [(GraduationPath.MINIMUM, 1)],
    max_class_size := 25, periods_per_day := 6 }

/-- C1: for every input with maxClassSize > 0 and periodsPerDay ≥ 2, the
MasterSchedule returned by `Scheduler.create_schedule` contains no two
ScheduledSections sharing (classroom_id, period, semester) and no two
sharing (teacher_id, period, semester); consequently
`MasterSchedule.validate` applied to that schedule returns the empty
list. -/
theorem C1_create_schedule_conflict_free (cfg : Config)
    (hmcs : 0 < cfg.max_class_size) (hppd : 2 ≤ cfg.periods_per_day) :
    no_shared_room_slot (create_schedule cfg).schedule.sections ∧
    no_shared_teacher_slot (create_schedule cfg).schedule.sections ∧
    (create_schedule cfg).schedule.validate = [] := by
  obtain ⟨_, _, hPR, hPT, _, _, _⟩ := engineFinalState_inv cfg
  have hroom : no_shared_room_slot (create_schedule cfg).schedule.sections := hPR
  have hteach : no_shared_teacher_slot (create_schedule cfg).schedule.sections := hPT
  refine ⟨hroom, hteach, ?_⟩
  rw [validate_nil_iff]
  intro sem _ p _
  exact slot_ok_of_no_shared _ hroom hteach p sem

/-- Witness for C1 at a concrete configuration. -/
theorem C1_witness :
    0 < cfgM1.max_class_size ∧ 2 ≤ cfgM1.periods_per_day ∧
      (no_shared_room_slot (create_schedule cfgM1).schedule.sections ∧
       no_shared_teacher_slot (create_schedule cfgM1).schedule.sections ∧
       (create_schedule cfgM1).schedule.validate = []) :=
  ⟨by decide, by decide,
    C1_create_schedule_conflict_free cfgM1 (by decide) (by decide)⟩

/-- C10: every ScheduledSection in the schedule returned by
`Scheduler.create_schedule` whose course lasts one semester is assigned
semester 1; the engine never places a single-semester course in
semester 2. -/
theorem C10_single_semester_only_in_sem1 (cfg : Config)
    (s : ScheduledSection)
    (hs : s ∈ (create_schedule cfg).schedule.sections) (c : Course)
    (hc : catalogGet s.course_code = some c) (h1 : c.semesters = 1) :
    s.semester = 1 := by
  obtain ⟨_, _, _, _, _, hSem, _⟩ := engineFinalState_inv cfg
  exact hSem s hs c hc h1

/-- The US-Government section the engine places for the `cfgM1`
configuration (semester 1, as C10 predicts). -/
def govtSectionM1 : ScheduledSection :=
  { course_code := "GOVT", section_id := 19, period := 4, semester := 1,
    classroom_id := "GENERAL_3", teacher_id := "HIST_REG_1" }

/-- Witness for C10: `GOVT` is a one-semester course and its scheduled
section at `cfgM1` sits in semester 1. -/
theorem C10_witness :
    govtSectionM1 ∈ (create_schedule cfgM1).schedule.sections ∧
    (∃ c, catalogGet govtSectionM1.course_code = some c ∧
      c.semesters = 1) ∧
    govtSectionM1.semester = 1 := by
  have hmem : govtSectionM1 ∈ (create_schedule cfgM1).schedule.sections := by
    decide
  have hc : catalogGet govtSectionM1.course_code = some
      { code := "GOVT", name := "US Government",
        subject_area := SubjectArea.HISTORY_SOCIAL_SCIENCE,
        credits := 5, semesters := 1, grade_levels := [12] } := by
    decide
  exact ⟨hmem, ⟨_, hc, rfl⟩,
    C10_single_semester_only_in_sem1 cfgM1 govtSectionM1 hmem _ hc rfl⟩

/-- Configuration exhibiting the mirror-placement overload: one path,
one student, two periods per day. -/
def cfgPpd2 : Config :=
  { students_per_path := [(GraduationPath.MINIMUM, 1)],
    max_class_size := 25, periods_per_day := 2 }

/-- C3 counterexample: with periodsPerDay = 2, the english teacher
`ENG_REG_1` of the generated pool receives 4 sections across the two
semesters (2 semester-1 placements plus 2 uncounted semester-2
mirrors), exceeding the claimed bound
(periodsPerDay - 1) * 2 = 2. -/
theorem C3_counterexample :
    "ENG_REG_1" ∈ (create_schedule cfgPpd2).schedule.teachers.map Teacher.id ∧
    ((create_schedule cfgPpd2).schedule.sections.filter
      (fun s => s.teacher_id == "ENG_REG_1")).length = 4 ∧
    ¬((((create_schedule cfgPpd2).schedule.sections.filter
      (fun s => s.teacher_id == "ENG_REG_1")).length : Int)
        ≤ (cfgPpd2.periods_per_day - 1) * 2) := by
  refine ⟨by decide, by decide, ?_⟩
  have h : ((create_schedule cfgPpd2).schedule.sections.filter
      (fun s => s.teacher_id == "ENG_REG_1")).length = 4 := by decide
  rw [h]
  decide

theorem periodsList_nodup (ppd : Int) : (periodsList ppd).Nodup := by
  rw [periodsList]
  have hinj : Function.Injective (fun i : Nat => (i : Int) + 1) := by
    intro a b h
    simp only at h
    omega
  exact List.Nodup.map hinj (List.nodup_range ppd.toNat)

theorem periodsList_length (ppd : Int) :
    (periodsList ppd).length = ppd.toNat := by
  rw [periodsList, List.length_map]
  exact List.length_range _

/-- The 2·periodsPerDay slots (semester, period) a teacher could at most
occupy. -/
def allSlots (ppd : Int) : List (Int × Int) :=
  (periodsList ppd).map (fun p => ((1 : Int), p))
    ++ (periodsList ppd).map (fun p => ((2 : Int), p))

theorem allSlots_nodup (ppd : Int) : (allSlots ppd).Nodup := by
  rw [allSlots, List.nodup_append]
  refine ⟨?_, ?_, ?_⟩
  · refine List.Nodup.map ?_ (periodsList_nodup ppd)
    intro a b h
    exact (Prod.mk.injEq _ _ _ _).mp h |>.2
  · refine List.Nodup.map ?_ (periodsList_nodup ppd)
    intro a b h
    exact (Prod.mk.injEq _ _ _ _).mp h |>.2
  · intro x hx hy
    rcases List.mem_map.mp hx with ⟨p, _, rfl⟩
    rcases List.mem_map.mp hy with ⟨q, _, he⟩
    have := (Prod.mk.injEq _ _ _ _).mp he |>.1
    exact absurd this (by decide)

theorem allSlots_length (ppd : Int) :
    (allSlots ppd).length = 2 * ppd.toNat := by
  rw [allSlots, List.length_append, List.length_map, List.length_map,
    periodsList_length]
  omega

/-- C3 amended: mirrored semester-2 copies are not counted against the
engine's load cap, so a teacher's total can exceed
(periodsPerDay - 1) * 2; what does hold is that the load counter (the
non-mirror placements) stays within (periodsPerDay - 1) * 2 and the
total number of sections per teacher is bounded by the availability
tables at 2 · periodsPerDay. -/
theorem C3_amended_teacher_bounds (cfg : Config) (id : String) :
    (engineFinalState cfg).teacher_sections id
        ≤ max 0 ((cfg.periods_per_day - 1) * 2) ∧
    ((create_schedule cfg).schedule.sections.filter
      (fun s => s.teacher_id == id)).length
        ≤ 2 * cfg.periods_per_day.toNat := by
  obtain ⟨_, _, _, hPT, hRange, _, hLoad⟩ := engineFinalState_inv cfg
  refine ⟨hLoad id, ?_⟩
  have hfl : List.Sublist
      ((engineFinalState cfg).placed.filter (fun s => s.teacher_id == id))
      (engineFinalState cfg).placed := List.filter_sublist _
  have hpw := List.Pairwise.sublist hfl hPT
  have hpairs : ((engineFinalState cfg).placed.filter
      (fun s => s.teacher_id == id)).Pairwise
      (fun a b => (a.semester, a.period) ≠ (b.semester, b.period)) := by
    refine List.Pairwise.imp_of_mem ?_ hpw
    intro a b ha hb hR he
    have hida : a.teacher_id = id := by
      have := (List.mem_filter.mp ha).2
      rwa [beq_iff_eq] at this
    have hidb : b.teacher_id = id := by
      have := (List.mem_filter.mp hb).2
      rwa [beq_iff_eq] at this
    have hp := (Prod.mk.injEq _ _ _ _).mp he
    exact hR ⟨hida.trans hidb.symm, hp.2, hp.1⟩
  have hnd : (((engineFinalState cfg).placed.filter
      (fun s => s.teacher_id == id)).map
      (fun s => (s.semester, s.period))).Nodup :=
    List.pairwise_map.mpr hpairs
  have hsubset : (((engineFinalState cfg).placed.filter
      (fun s => s.teacher_id == id)).map
      (fun s => (s.semester, s.period)))
        ⊆ allSlots cfg.periods_per_day := by
    intro x hx
    rcases List.mem_map.mp hx with ⟨s, hs, rfl⟩
    have hmem := List.mem_of_mem_filter hs
    obtain ⟨hsem, hper⟩ := hRange s hmem
    rw [allSlots]
    rcases hsem with h1 | h2
    · exact List.mem_append_left _
        (List.mem_map.mpr ⟨s.period, hper, by rw [h1]⟩)
    · exact List.mem_append_right _
        (List.mem_map.mpr ⟨s.period, hper, by rw [h2]⟩)
  have hsp := List.Nodup.subperm hnd hsubset
  have hlen := List.Subperm.length_le hsp
  rw [List.length_map, allSlots_length] at hlen
  exact hlen

/-- Configuration at which a section unit is unplaceable: the pre-med
path with one student and three periods per day. -/
def cfgPm3 : Config :=
  { students_per_path := [(GraduationPath.PRE_MED, 1)],
    max_class_size := 25, periods_per_day := 3 }

/-- C4 counterexample: at `cfgPm3` an Economics section unit cannot be
placed; the engine's only trace of it is a console print — the returned
`MasterSchedule` (by construction just sections, classrooms and
teachers) carries no faults list, so the fault is printed and dropped
rather than returned. -/
theorem C4_counterexample : (create_schedule cfgPm3).printed ≠ [] := by
  decide

theorem placeSection_printed (course : Course) (code : String)
    (room : Classroom) (teacher : Teacher) (sem period : Int)
    (st : EngineState) :
    (placeSection course code room teacher sem period st).printed
      = st.printed := by
  rw [placeSection]
  dsimp only
  split
  · split <;> rfl
  · rfl

theorem tryPeriods_printed {course : Course} {code : String}
    {rooms : List Classroom} {teachers : List Teacher} {sem : Int}
    {st st' : EngineState} (periods : List Int)
    (h : tryPeriods course code rooms teachers sem st periods = some st') :
    st'.printed = st.printed := by
  induction periods with
  | nil => simp [tryPeriods] at h
  | cons p rest ih =>
    rw [tryPeriods] at h
    cases hfr : findAvailableRoom st sem p rooms with
    | none =>
      rw [hfr] at h
      exact ih h
    | some room =>
      rw [hfr] at h
      cases hft : findAvailableTeacher st sem p teachers with
      | none =>
        rw [hft] at h
        exact ih h
      | some teacher =>
        rw [hft] at h
        rw [← Option.some_inj.mp h]
        exact placeSection_printed course code room teacher sem p st

/-- Everything the engine ever prints is a could-not-schedule warning. -/
def printedWarnOk (st : EngineState) : Prop :=
  ∀ w ∈ st.printed,
    ∃ name, w = "WARNING: Could not schedule section of " ++ name

theorem scheduleUnit_printed {course : Course} {code : String}
    {rooms : List Classroom} {teachers : List Teacher} {ppd : Int}
    {st : EngineState} (sems : List Int) (hp : printedWarnOk st) :
    printedWarnOk (scheduleUnit course code rooms teachers ppd st sems) := by
  induction sems generalizing st with
  | nil =>
    intro w hw
    rcases List.mem_append.mp hw with h | h
    · exact hp w h
    · rcases List.mem_singleton.mp h with rfl
      exact ⟨course.name, rfl⟩
  | cons sem rest ih =>
    rw [scheduleUnit]
    cases htp : tryPeriods course code rooms teachers sem st
        (periodsList ppd) with
    | some st1 =>
      intro w hw
      rw [tryPeriods_printed (periodsList ppd) htp] at hw
      exact hp w hw
    | none => exact ih hp

theorem scheduleCourse_printed {cfg : Config}
    {classrooms : List Classroom} {teachers : List Teacher}
    {sn : List (String × List (Int × Int))} {st : EngineState}
    (code : String) (hp : printedWarnOk st) :
    printedWarnOk (scheduleCourse cfg classrooms teachers sn st code) := by
  rw [scheduleCourse]
  cases hc : catalogGet code with
  | none => exact hp
  | some course =>
    apply foldl_preserve printedWarnOk _ _ _ _ hp
    intro a b _ ha
    exact scheduleUnit_printed _ ha

/-- C4 amended: an unplaceable section unit (and only such a unit)
leaves a printed console warning; the returned result contains no fault
record — at `cfgPm3` the Economics unit is dropped entirely from the
schedule and survives only as the printed line. -/
theorem C4_amended_faults_printed_and_dropped :
    (∀ cfg : Config, ∀ w ∈ (create_schedule cfg).printed,
      ∃ name, w = "WARNING: Could not schedule section of " ++ name) ∧
    (create_schedule cfgPm3).printed
      = ["WARNING: Could not schedule section of Economics"] ∧
    ((create_schedule cfgPm3).schedule.sections.filter
      (fun s => s.course_code == "ECON")).length = 0 := by
  refine ⟨?_, by decide, by decide⟩
  intro cfg
  have : printedWarnOk (engineFinalState cfg) := by
    rw [engineFinalState]
    refine foldl_preserve printedWarnOk _ _ ?_ _ ?_
    · intro a b _ ha
      exact scheduleCourse_printed b ha
    · intro w hw
      cases hw
  exact this

/-- Witness for C4's amended statement: the concrete warning at
`cfgPm3` indeed has the warning shape. -/
theorem C4_amended_witness :
    ("WARNING: Could not schedule section of Economics"
        ∈ (create_schedule cfgPm3).printed) ∧
    ∃ name, "WARNING: Could not schedule section of Economics"
      = "WARNING: Could not schedule section of " ++ name := by
  have hmem : "WARNING: Could not schedule section of Economics"
      ∈ (create_schedule cfgPm3).printed := by decide
  exact ⟨hmem,
    C4_amended_faults_printed_and_dropped.1 cfgPm3 _ hmem⟩

theorem alistGet?_mapSnd {α β γ : Type} [DecidableEq α] (f : β → γ)
    (l : List (α × β)) (k : α) :
    alistGet? k (l.map (fun p => (p.1, f p.2))) = (alistGet? k l).map f := by
  induction l with
  | nil => simp [alistGet?]
  | cons p rest ih =>
    rw [List.map_cons, alistGet?_cons, alistGet?_cons]
    by_cases h : p.1 = k
    · rw [if_pos h, if_pos h]
      rfl
    · rw [if_neg h, if_neg h, ih]

/-- Configuration with a zero-enrollment path: every demanded course
gets demand 0, hence 0 sections, yet stays present in the outputs. -/
def cfgZero : Config :=
  { students_per_path := [(GraduationPath.MINIMUM, 0)],
    max_class_size := 25, periods_per_day := 6 }

/-- C2 counterexample: with a zero-enrollment path, `ENGLISH` appears in
`calculate_min_teachers` with total 0 — subjects with zero total
sections are not absent from the result. -/
theorem C2_counterexample :
    alistGet? SubjectArea.ENGLISH (calculate_min_teachers cfgZero)
      = some { ap_qualified := 0, regular_only := 0, total := 0 } := by
  decide

/-- C2 amended: every entry of `calculate_min_teachers` is obtained
from the subject's (regular, AP) section totals by exactly the claimed
formulas — ap = ceil(apSections / cap),
regular = ceil(max(0, regularSections - (ap·cap - apSections)) / cap),
total = ap + regular with cap = periodsPerDay - 1; in particular
apSections = 12, regularSections = 10, cap = 5 gives (3, 2, 5), and
zero AP sections leave all regular sections to the regular-only
formula.  (Amendment: a subject whose demanded courses all have zero
sections still appears, with all counts 0.) -/
theorem C2_min_teachers_formula (cfg : Config) :
    (∀ subj tc,
      alistGet? subj (calculate_min_teachers cfg) = some tc →
      ∃ lc, alistGet? subj (subjectSections cfg) = some lc ∧
        tc = minTeachersFor lc.ap lc.regular (cfg.periods_per_day - 1)) ∧
    minTeachersFor 12 10 5
      = { ap_qualified := 3, regular_only := 2, total := 5 } ∧
    (∀ r : Int, 0 ≤ r → ∀ cap : Int,
      minTeachersFor 0 r cap
        = { ap_qualified := 0, regular_only := pyCeilDiv r cap,
            total := pyCeilDiv r cap }) := by
  refine ⟨?_, by decide, ?_⟩
  · intro subj tc htc
    rw [calculate_min_teachers] at htc
    have hmap := alistGet?_mapSnd
      (fun lc : LevelCounts =>
        minTeachersFor lc.ap lc.regular (cfg.periods_per_day - 1))
      (subjectSections cfg) subj
    rw [hmap] at htc
    cases hlc : alistGet? subj (subjectSections cfg) with
    | none =>
      rw [hlc] at htc
      cases htc
    | some lc =>
      rw [hlc] at htc
      exact ⟨lc, rfl, (Option.some_inj.mp htc).symm⟩
  · intro r hr cap
    have hz : Int.ediv 0 cap = 0 := by
      unfold Int.ediv
      cases cap with
      | ofNat n => cases n <;> simp
      | negSucc n => simp
    have h0 : pyCeilDiv 0 cap = 0 := by
      simp [pyCeilDiv, hz]
    rw [minTeachersFor]
    rw [h0]
    have h1 : (0 : Int) * cap - 0 = 0 := by ring
    rw [h1]
    have h2 : max 0 (r - 0) = r := by
      rw [sub_zero]
      exact max_eq_right hr
    rw [h2]
    have h3 : (0 : Int) + pyCeilDiv r cap = pyCeilDiv r cap := by ring
    rw [h3]

/-- Witness for C2 at a concrete configuration: the ENGLISH entry of
`cfgM1` is produced by the formula from its level counts (0 AP and 4
regular sections), and the boundary case instantiates at r = 10. -/
theorem C2_witness :
    (∃ lc, alistGet? SubjectArea.ENGLISH (subjectSections cfgM1) = some lc ∧
      ({ ap_qualified := 0, regular_only := 1, total := 1 } : TeacherCounts)
        = minTeachersFor lc.ap lc.regular (cfgM1.periods_per_day - 1)) ∧
    (0 : Int) ≤ 10 ∧
    minTeachersFor 0 10 5
      = { ap_qualified := 0, regular_only := 2, total := 2 } := by
  refine ⟨(C2_min_teachers_formula cfgM1).1 SubjectArea.ENGLISH _ (by decide),
    by decide, ?_⟩
  have h := (C2_min_teachers_formula cfgM1).2.2 10 (by decide) 5
  rw [h]
  decide

/-- Nested lookup into the `{course: {year: count}}` result of
`calculate_sections_needed`. -/
def sectionsFor (cfg : Config) (code : String) (year : Int) :
    Option Int :=
  (alistGet? code (calculate_sections_needed cfg)).bind
    (fun ys => alistGet? year ys)

/-- A configuration violating every clause of the claimed input
contract: negative enrollment and periodsPerDay = 1. -/
def cfgBad : Config :=
  { students_per_path := [(GraduationPath.MINIMUM, -30)],
    max_class_size := 25, periods_per_day := 1 }

/-- C9 counterexample: the invalid configuration is not rejected — the
constructors store it unvalidated and `calculate_sections_needed`
produces output from it (a negative section count, ceil(-30/25) = -1,
for English 9). -/
theorem C9_counterexample : sectionsFor cfgBad "ENG9" 1 = some (-1) := by
  decide

/-- A fold whose step ignores the elements rejected by `q` computes the
same value on the filtered list. -/
theorem foldl_filter_skip {α β : Type} (f : β → α → β) (q : α → Bool)
    (hskip : ∀ b a, q a = false → f b a = b) (l : List α) :
    ∀ b, (l.filter q).foldl f b = l.foldl f b := by
  induction l with
  | nil => intro b; rfl
  | cons x xs ih =>
    intro b
    rw [List.filter_cons, List.foldl_cons]
    by_cases hq : q x = true
    · rw [if_pos hq, List.foldl_cons]
      exact ih (f b x)
    · have hqf : q x = false := by
        cases hqv : q x
        · rfl
        · exact absurd hqv hq
      rw [if_neg (by rw [hqf]; simp), hskip b x hqf]
      exact ih b

/-- C8 counterexample: `REL1` is referenced by every path plan but is
absent from the catalog, yet it is present in the section-counts output
of the Calculator — unknown codes are not excluded from
`calculate_sections_needed`. -/
theorem C8_counterexample :
    catalogGet "REL1" = none ∧ sectionsFor cfgM1 "REL1" 1 = some 1 := by
  constructor
  · decide
  · decide

/-- C8 amended: codes absent from the catalog are skipped (with no
recorded warning) by the minimum-classroom and minimum-teacher
groupings — restricting the demand table to catalog-known codes changes
neither grouping — but such codes are not excluded from the
section-counts output (see the counterexample), and no computation
crashes. -/
theorem C8_unknown_codes_skipped_in_groupings (cfg : Config) :
    ((calculate_sections_needed cfg).filter
        (fun p => (catalogGet p.1).isSome)).foldl roomTypeStep []
      = (calculate_sections_needed cfg).foldl roomTypeStep [] ∧
    ((calculate_sections_needed cfg).filter
        (fun p => (catalogGet p.1).isSome)).foldl subjectStep []
      = (calculate_sections_needed cfg).foldl subjectStep [] := by
  constructor
  · apply foldl_filter_skip
    intro b a hq
    rw [roomTypeStep]
    cases hc : catalogGet a.1 with
    | none => rfl
    | some c =>
      rw [hc] at hq
      cases hq
  · apply foldl_filter_skip
    intro b a hq
    rw [subjectStep]
    cases hc : catalogGet a.1 with
    | none => rfl
    | some c =>
      rw [hc] at hq
      cases hq

/-- The spec's wording of the validity notion (§4.2 validate, claim C5):
within every period 1..periodsPerDay and both semesters, no classroom
and no teacher appears in more than one section, re-derived from the
section list alone. -/
def spec_conflict_free (ppd : Int) (ms : MasterSchedule) : Prop :=
  ∀ sem ∈ ([1, 2] : List Int), ∀ p ∈ periodsList ppd,
    (ms.get_sections_by_period p sem).Pairwise
      (fun a b => a.classroom_id ≠ b.classroom_id) ∧
    (ms.get_sections_by_period p sem).Pairwise
      (fun a b => a.teacher_id ≠ b.teacher_id)

instance spec_conflict_free_decidable (ppd : Int) (ms : MasterSchedule) :
    Decidable (spec_conflict_free ppd ms) := by
  unfold spec_conflict_free
  infer_instance

/-- A schedule double-booking classroom R1 in period 7: `validate` never
looks past period 6. -/
def msP7 : MasterSchedule :=
  { sections := [
      { course_code := "ENG9", section_id := 1, period := 7, semester := 1,
        classroom_id := "R1", teacher_id := "T1" },
      { course_code := "ALG1", section_id := 2, period := 7, semester := 1,
        classroom_id := "R1", teacher_id := "T2" }],
    classrooms := [], teachers := [] }

/-- C5 counterexample: for periodsPerDay = 7 the schedule `msP7` has a
classroom double-booked in period 7, yet `validate` (hard-coded to
periods 1..6) returns the empty list — the claimed equivalence over
periods 1..periodsPerDay fails. -/
theorem C5_counterexample :
    msP7.validate = [] ∧ ¬ spec_conflict_free 7 msP7 := by
  constructor
  · decide
  · decide

theorem pairwise_key_of_counts {α : Type} (key : α → String)
    (l : List α)
    (h : ∀ k, (l.filter (fun x => key x == k)).length ≤ 1) :
    l.Pairwise (fun a b => key a ≠ key b) := by
  induction l with
  | nil => exact List.Pairwise.nil
  | cons x xs ih =>
    refine List.pairwise_cons.mpr ⟨?_, ih ?_⟩
    · intro b hb heq
      have hx := h (key x)
      rw [List.filter_cons] at hx
      rw [if_pos (by rw [beq_self_eq_true])] at hx
      have hlen : (xs.filter (fun y => key y == key x)).length = 0 := by
        rw [List.length_cons] at hx
        omega
      have hbmem : b ∈ xs.filter (fun y => key y == key x) :=
        List.mem_filter.mpr ⟨hb, by rw [beq_iff_eq]; exact heq.symm⟩
      rw [List.length_eq_zero] at hlen
      rw [hlen] at hbmem
      cases hbmem
    · intro k
      have hx := h k
      rw [List.filter_cons] at hx
      by_cases hc : (key x == k) = true
      · rw [if_pos hc, List.length_cons] at hx
        omega
      · rw [if_neg hc] at hx
        exact hx

theorem slot_ok_iff_pairwise (ms : MasterSchedule) (p sem : Int) :
    slot_ok ms p sem ↔
      (ms.get_sections_by_period p sem).Pairwise
        (fun a b => a.classroom_id ≠ b.classroom_id) ∧
      (ms.get_sections_by_period p sem).Pairwise
        (fun a b => a.teacher_id ≠ b.teacher_id) := by
  constructor
  · rintro ⟨hc, ht⟩
    exact ⟨pairwise_key_of_counts _ _
        (counts_of_groupByKey_small _ _ hc),
      pairwise_key_of_counts _ _
        (counts_of_groupByKey_small _ _ ht)⟩
  · rintro ⟨hc, ht⟩
    exact ⟨groupByKey_small_of_counts _ _
        (fun k => length_filter_le_one_of_pairwise_key hc k),
      groupByKey_small_of_counts _ _
        (fun k => length_filter_le_one_of_pairwise_key ht k)⟩

/-- C5 amended: for every MasterSchedule whose section codes are all in
the catalog (outside that region the Python `validate` raises
`KeyError` while building a conflict message), `validate` returns the
empty list iff no classroom and no teacher is double-booked within any
of the hard-coded periods 1..6 (not 1..periodsPerDay) and both
semesters. -/
theorem C5_validate_empty_iff_conflict_free_on_6 (ms : MasterSchedule)
    (hcat : ∀ s ∈ ms.sections, (catalogGet s.course_code).isSome) :
    ms.validate = [] ↔ spec_conflict_free 6 ms := by
  rw [validate_nil_iff]
  have hp6 : periodsList 6 = [1, 2, 3, 4, 5, 6] := by decide
  unfold spec_conflict_free
  rw [hp6]
  constructor
  · intro h sem hsem q hq
    exact (slot_ok_iff_pairwise ms q sem).mp (h sem hsem q hq)
  · intro h sem hsem q hq
    exact (slot_ok_iff_pairwise ms q sem).mpr (h sem hsem q hq)

/-- Witness for C5's amended statement at the concrete schedule
`msP7` (whose two codes are catalog entries). -/
theorem C5_witness :
    (∀ s ∈ msP7.sections, (catalogGet s.course_code).isSome) ∧
    (msP7.validate = [] ↔ spec_conflict_free 6 msP7) :=
  ⟨by decide, C5_validate_empty_iff_conflict_free_on_6 msP7 (by decide)⟩

/-- `sorted(..., key=...)` behaves as a stable ascending sort: the key
values along the result are monotone. -/
def KeySorted (key : String → Int) (l : List String) : Prop :=
  l.Pairwise (fun a b => key a ≤ key b)

theorem insertByKey_perm (key : String → Int) (x : String)
    (l : List String) : (insertByKey key x l).Perm (x :: l) := by
  induction l with
  | nil => exact List.Perm.refl _
  | cons y ys ih =>
    rw [insertByKey]
    by_cases hle : key y ≤ key x
    · rw [if_pos hle]
      exact (List.Perm.cons y ih).trans (List.Perm.swap x y ys)
    · rw [if_neg hle]

theorem insertByKey_sorted (key : String → Int) (x : String)
    (l : List String) (h : KeySorted key l) :
    KeySorted key (insertByKey key x l) := by
  induction l with
  | nil => exact List.pairwise_singleton _ _
  | cons y ys ih =>
    rw [insertByKey]
    by_cases hle : key y ≤ key x
    · rw [if_pos hle]
      refine List.pairwise_cons.mpr ⟨?_, ih (List.pairwise_cons.mp h).2⟩
      intro z hz
      have hz2 := (insertByKey_perm key x ys).mem_iff.mp hz
      rcases List.mem_cons.mp hz2 with rfl | hz3
      · exact hle
      · exact (List.pairwise_cons.mp h).1 z hz3
    · rw [if_neg hle]
      refine List.pairwise_cons.mpr ⟨?_, h⟩
      intro z hz
      have hxy : key x ≤ key y := le_of_not_le hle
      rcases List.mem_cons.mp hz with rfl | hz2
      · exact hxy
      · exact le_trans hxy ((List.pairwise_cons.mp h).1 z hz2)

theorem sortedByKey_perm_aux (key : String → Int) (l : List String) :
    ∀ acc, (l.foldl (fun acc x => insertByKey key x acc) acc).Perm
      (acc ++ l) := by
  induction l with
  | nil => intro acc; simp
  | cons x xs ih =>
    intro acc
    rw [List.foldl_cons]
    refine (ih (insertByKey key x acc)).trans ?_
    refine (List.Perm.append_right xs (insertByKey_perm key x acc)).trans ?_
    exact List.perm_middle.symm

theorem sortedByKey_perm (key : String → Int) (l : List String) :
    (sortedByKey key l).Perm l := by
  rw [sortedByKey]
  simpa using sortedByKey_perm_aux key l []

theorem sortedByKey_sorted (key : String → Int) (l : List String) :
    KeySorted key (sortedByKey key l) := by
  rw [sortedByKey]
  refine foldl_preserve (KeySorted key) _ _ ?_ _ List.Pairwise.nil
  intro acc x _ hacc
  exact insertByKey_sorted key x acc hacc

/-- C7 amended: the scheduling order is the stable ascending sort of
the demand-table keys by `course_priority` (AP +100, specialised room
+50, negated) — it is a permutation of the keys, monotone in the
priority key; ties keep the demand-table insertion order (which stems
from Python set iteration), they are not broken lexicographically by
course code. -/
theorem C7_sorted_by_priority_stable (cfg : Config) :
    KeySorted course_priority (sortedCoursesFor cfg) ∧
    (sortedCoursesFor cfg).Perm
      ((calculate_sections_needed cfg).map (fun p => p.1)) := by
  constructor
  · exact sortedByKey_sorted course_priority _
  · exact sortedByKey_perm course_priority _

/-- C7 counterexample: `ENG9` and `ALG1` have equal priority weight,
`"ALG1" < "ENG9"` lexicographically, yet `ENG9` precedes `ALG1` in the
scheduling order — ties are not broken lexicographically by course
code. -/
theorem C7_counterexample :
    course_priority "ENG9" = course_priority "ALG1" ∧
    List.Lex (fun a b : Char => a < b) "ALG1".data "ENG9".data ∧
    List.indexOf "ENG9" (sortedCoursesFor cfgM1)
      < List.indexOf "ALG1" (sortedCoursesFor cfgM1) := by
  refine ⟨by decide, ?_, by decide⟩
  apply List.Lex.rel
  decide

/- ====== demand characterisation (for C6 and C9) ====== -/

/-- Nested lookup into the demand accumulator. -/
def demandGet (m : List (String × List (Int × Int))) (code : String)
    (year : Int) : Option Int :=
  (alistGet? code m).bind (fun ys => alistGet? year ys)

/-- Spec §4.1: path `g` demands `code` in `year` when one of its year
plans for that year lists the code (deduplicated across the two
semester lists). -/
def touches (g : GraduationPath) (code : String) (year : Int) : Prop :=
  ∃ yp ∈ (pathPlanFor g).year_plans,
    yp.year = year ∧ code ∈ yp.get_all_courses

instance touches_decidable (g : GraduationPath) (code : String)
    (year : Int) : Decidable (touches g code year) := by
  unfold touches
  infer_instance

/-- Spec §4.1 demand: the sum over the enrollment mapping of each
path's enrollment, counted once per year in which the path's plan
lists the code. -/
def specDemand (cfg : Config) (code : String) (year : Int) : Int :=
  (cfg.students_per_path.map (fun pn =>
    if touches pn.1 code year then pn.2 else 0)).sum

/-- Some entry of the enrollment mapping references `code` in `year`. -/
def referenced (cfg : Config) (code : String) (year : Int) : Prop :=
  ∃ pn ∈ cfg.students_per_path, touches pn.1 code year

instance referenced_decidable (cfg : Config) (code : String)
    (year : Int) : Decidable (referenced cfg code year) := by
  unfold referenced
  infer_instance

theorem alistBumpInt_get {α : Type} [DecidableEq α] (m : List (α × Int))
    (k0 : α) (n : Int) (k : α) :
    alistGet? k (alistBumpInt m k0 n) =
      if k = k0 then some ((alistGet? k m).getD 0 + n)
      else alistGet? k m := by
  cases h : alistGet? k0 m with
  | some v =>
    simp only [alistBumpInt, h]
    have hmap := alistGet?_mapUpdate k0 k (fun v => v + n) m
    rw [hmap]
    by_cases hk : k = k0
    · subst hk
      rw [if_pos rfl, if_pos rfl, h]
      rfl
    · rw [if_neg hk, if_neg hk]
  | none =>
    simp only [alistBumpInt, h]
    rw [alistGet?_append]
    by_cases hk : k = k0
    · subst hk
      rw [h]
      rw [alistGet?_cons]
      rw [if_pos rfl]
      simp
    · cases h2 : alistGet? k m with
      | some v => rw [if_neg hk]
      | none =>
        rw [if_neg hk, alistGet?_cons, if_neg (fun he => hk he.symm)]
        rfl

theorem bumpDemand_get (m : List (String × List (Int × Int)))
    (c : String) (y n : Int) (code : String) (year : Int) :
    demandGet (bumpDemand m c y n) code year =
      if code = c ∧ year = y then
        some ((demandGet m code year).getD 0 + n)
      else demandGet m code year := by
  cases h : alistGet? c m with
  | some ys =>
    rw [demandGet, demandGet]
    simp only [bumpDemand, h]
    have hmap := alistGet?_mapUpdate c code
      (fun v => alistBumpInt v y n) m
    rw [hmap]
    by_cases hc : code = c
    · subst hc
      rw [if_pos rfl, h]
      have hstep : ((some ys).map (fun v => alistBumpInt v y n)).bind
          (fun ys => alistGet? year ys)
            = alistGet? year (alistBumpInt ys y n) := rfl
      rw [hstep, alistBumpInt_get]
      by_cases hy : year = y
      · rw [if_pos hy, if_pos ⟨rfl, hy⟩]
        rfl
      · rw [if_neg hy, if_neg (fun hh => hy hh.2)]
        rfl
    · rw [if_neg hc, if_neg (fun hh => hc hh.1)]
  | none =>
    rw [demandGet, demandGet]
    simp only [bumpDemand, h]
    rw [alistGet?_append]
    by_cases hc : code = c
    · subst hc
      by_cases hy : year = y
      · subst hy
        rw [if_pos ⟨rfl, rfl⟩]
        simp [h, alistGet?]
      · rw [if_neg (fun hh => hy hh.2)]
        simp [h, alistGet?, Ne.symm hy]
    · rw [if_neg (fun hh : code = c ∧ year = y => hc hh.1)]
      cases h2 : alistGet? code m with
      | some v => simp [h2]
      | none => simp [h2, alistGet?, Ne.symm hc]

theorem foldCourses_get (y n : Int) (codes : List String)
    (hnd : codes.Nodup) (m : List (String × List (Int × Int)))
    (code : String) (year : Int) :
    demandGet (codes.foldl (fun m c => bumpDemand m c y n) m) code year =
      if code ∈ codes ∧ year = y then
        some ((demandGet m code year).getD 0 + n)
      else demandGet m code year := by
  induction codes generalizing m with
  | nil => simp
  | cons c cs ih =>
    rw [List.foldl_cons]
    rw [ih (List.nodup_cons.mp hnd).2]
    by_cases hc : code = c
    · subst hc
      have hnotmem : code ∉ cs := (List.nodup_cons.mp hnd).1
      rw [if_neg (fun hh => hnotmem hh.1)]
      rw [bumpDemand_get]
      by_cases hy : year = y
      · rw [if_pos ⟨rfl, hy⟩, if_pos ⟨List.mem_cons_self _ _, hy⟩]
      · rw [if_neg (fun hh => hy hh.2), if_neg (fun hh => hy hh.2)]
    · have hmem : (code ∈ c :: cs ∧ year = y) ↔ (code ∈ cs ∧ year = y) := by
        constructor
        · rintro ⟨hin, hy⟩
          rcases List.mem_cons.mp hin with rfl | hin2
          · exact absurd rfl hc
          · exact ⟨hin2, hy⟩
        · rintro ⟨hin, hy⟩
          exact ⟨List.mem_cons_of_mem c hin, hy⟩
      have hbd : demandGet (bumpDemand m c y n) code year
          = demandGet m code year := by
        rw [bumpDemand_get, if_neg (fun hh => hc hh.1)]
      by_cases hrest : code ∈ cs ∧ year = y
      · rw [if_pos hrest, if_pos (hmem.mpr hrest), hbd]
      · rw [if_neg hrest, if_neg (fun hh => hrest (hmem.mp hh)), hbd]

theorem foldPlans_get (n : Int) (plans : List YearPlan)
    (hpw : plans.Pairwise (fun a b => a.year ≠ b.year))
    (hnd : ∀ yp ∈ plans, yp.get_all_courses.Nodup)
    (m : List (String × List (Int × Int))) (code : String) (year : Int) :
    demandGet (plans.foldl (fun m yp =>
        yp.get_all_courses.foldl (fun m c => bumpDemand m c yp.year n) m)
      m) code year =
      if ∃ yp ∈ plans, yp.year = year ∧ code ∈ yp.get_all_courses then
        some ((demandGet m code year).getD 0 + n)
      else demandGet m code year := by
  induction plans generalizing m with
  | nil => simp
  | cons yp rest ih =>
    rw [List.foldl_cons]
    have hstep := foldCourses_get yp.year n yp.get_all_courses
      (hnd yp (List.mem_cons_self _ _)) m code year
    rw [ih (List.pairwise_cons.mp hpw).2
      (fun q hq => hnd q (List.mem_cons_of_mem yp hq))]
    by_cases ht : yp.year = year ∧ code ∈ yp.get_all_courses
    · have hnone : ¬ ∃ q ∈ rest, q.year = year ∧ code ∈ q.get_all_courses := by
        rintro ⟨q, hq, hqy, _⟩
        exact ((List.pairwise_cons.mp hpw).1 q hq) (ht.1.trans hqy.symm)
      rw [if_neg hnone, hstep, if_pos ⟨ht.2, ht.1.symm⟩]
      rw [if_pos ⟨yp, List.mem_cons_self _ _, ht⟩]
    · have hval : demandGet (yp.get_all_courses.foldl
          (fun m c => bumpDemand m c yp.year n) m) code year
            = demandGet m code year := by
        rw [hstep, if_neg (fun hh => ht ⟨hh.2.symm, hh.1⟩)]
      rw [hval]
      by_cases hrest : ∃ q ∈ rest, q.year = year ∧ code ∈ q.get_all_courses
      · rw [if_pos hrest]
        rcases hrest with ⟨q, hq, hqp⟩
        rw [if_pos ⟨q, List.mem_cons_of_mem yp hq, hqp⟩]
      · have hx : ¬ ∃ q ∈ yp :: rest,
            q.year = year ∧ code ∈ q.get_all_courses := by
          rintro ⟨q, hq, hqp⟩
          rcases List.mem_cons.mp hq with rfl | hq2
          · exact ht hqp
          · exact hrest ⟨q, hq2, hqp⟩
        rw [if_neg hrest, if_neg hx]

/-- The fixed path data is well-formed: the four year plans of every
path have distinct years, and the per-year course lists are
duplicate-free. -/
theorem paths_wf (g : GraduationPath) :
    (pathPlanFor g).year_plans.Pairwise (fun a b => a.year ≠ b.year) ∧
    ∀ yp ∈ (pathPlanFor g).year_plans, yp.get_all_courses.Nodup := by
  cases g <;> exact ⟨by decide, by decide⟩

theorem specDemand_nil_of_no_touch (entries : List (GraduationPath × Int))
    (code : String) (year : Int)
    (h : ¬ ∃ pn ∈ entries, touches pn.1 code year) :
    (entries.map (fun pn =>
      if touches pn.1 code year then pn.2 else 0)).sum = 0 := by
  induction entries with
  | nil => rfl
  | cons pn rest ih =>
    simp only [List.map_cons, List.sum_cons]
    rw [if_neg (fun ht => h ⟨pn, List.mem_cons_self _ _, ht⟩)]
    rw [ih (fun ⟨q, hq, hqt⟩ => h ⟨q, List.mem_cons_of_mem pn hq, hqt⟩)]
    rfl

theorem foldPaths_get (entries : List (GraduationPath × Int))
    (m : List (String × List (Int × Int))) (code : String) (year : Int) :
    demandGet (entries.foldl (fun m pn =>
        (pathPlanFor pn.1).year_plans.foldl (fun m yp =>
          yp.get_all_courses.foldl
            (fun m c => bumpDemand m c yp.year pn.2) m) m)
      m) code year =
      if ∃ pn ∈ entries, touches pn.1 code year then
        some ((demandGet m code year).getD 0
          + (entries.map (fun pn =>
              if touches pn.1 code year then pn.2 else 0)).sum)
      else demandGet m code year := by
  induction entries generalizing m with
  | nil => simp
  | cons pn rest ih =>
    rw [List.foldl_cons]
    have hwf := paths_wf pn.1
    have hstep := foldPlans_get pn.2 (pathPlanFor pn.1).year_plans
      hwf.1 hwf.2 m code year
    rw [ih]
    by_cases ht : touches pn.1 code year
    · have ht2 : ∃ yp ∈ (pathPlanFor pn.1).year_plans,
          yp.year = year ∧ code ∈ yp.get_all_courses := ht
      have hval : demandGet ((pathPlanFor pn.1).year_plans.foldl
          (fun m yp => yp.get_all_courses.foldl
            (fun m c => bumpDemand m c yp.year pn.2) m) m) code year
            = some ((demandGet m code year).getD 0 + pn.2) := by
        rw [hstep, if_pos ht2]
      by_cases hrest : ∃ q ∈ rest, touches q.1 code year
      · rw [if_pos hrest, hval]
        rw [if_pos ⟨pn, List.mem_cons_self _ _, ht⟩]
        simp only [List.map_cons, List.sum_cons]
        rw [if_pos ht]
        congr 1
        dsimp only [Option.getD]
        ring
      · rw [if_neg hrest, hval]
        rw [if_pos ⟨pn, List.mem_cons_self _ _, ht⟩]
        simp only [List.map_cons, List.sum_cons]
        rw [if_pos ht]
        rw [specDemand_nil_of_no_touch rest code year hrest, add_zero]
    · have ht2 : ¬ ∃ yp ∈ (pathPlanFor pn.1).year_plans,
          yp.year = year ∧ code ∈ yp.get_all_courses := ht
      have hval : demandGet ((pathPlanFor pn.1).year_plans.foldl
          (fun m yp => yp.get_all_courses.foldl
            (fun m c => bumpDemand m c yp.year pn.2) m) m) code year
            = demandGet m code year := by
        rw [hstep, if_neg ht2]
      rw [hval]
      by_cases hrest : ∃ q ∈ rest, touches q.1 code year
      · have hx : ∃ q ∈ pn :: rest, touches q.1 code year := by
          rcases hrest with ⟨q, hq, hqt⟩
          exact ⟨q, List.mem_cons_of_mem pn hq, hqt⟩
        rw [if_pos hrest, if_pos hx]
        simp only [List.map_cons, List.sum_cons]
        rw [if_neg ht]
        congr 1
        ring
      · have hx : ¬ ∃ q ∈ pn :: rest, touches q.1 code year := by
          rintro ⟨q, hq, hqt⟩
          rcases List.mem_cons.mp hq with rfl | hq2
          · exact ht hqt
          · exact hrest ⟨q, hq2, hqt⟩
        rw [if_neg hrest, if_neg hx]

/-- `calculate_sections_needed` looked up at (code, year) is exactly:
present iff some enrollment entry references the code in that year, and
then equal to ceil(specDemand / maxClassSize). -/
theorem sectionsFor_char (cfg : Config) (code : String) (year : Int) :
    sectionsFor cfg code year =
      if referenced cfg code year then
        some (pyCeilDiv (specDemand cfg code year) cfg.max_class_size)
      else none := by
  have houter := alistGet?_mapSnd
    (fun ys : List (Int × Int) =>
      ys.map (fun q => (q.1, pyCeilDiv q.2 cfg.max_class_size)))
    (courseDemand cfg) code
  have hsf : sectionsFor cfg code year
      = ((alistGet? code (courseDemand cfg)).map
          (fun ys => ys.map (fun q =>
            (q.1, pyCeilDiv q.2 cfg.max_class_size)))).bind
        (fun ys => alistGet? year ys) := by
    rw [sectionsFor, calculate_sections_needed, houter]
  have hinner : ∀ ys : List (Int × Int),
      alistGet? year (ys.map (fun q =>
        (q.1, pyCeilDiv q.2 cfg.max_class_size)))
        = (alistGet? year ys).map (fun d => pyCeilDiv d cfg.max_class_size) :=
    fun ys => alistGet?_mapSnd (fun d => pyCeilDiv d cfg.max_class_size) ys year
  have hmain := foldPaths_get cfg.students_per_path [] code year
  have hempty : demandGet [] code year = none := rfl
  rw [hempty] at hmain
  have hcd : demandGet (courseDemand cfg) code year =
      if referenced cfg code year then
        some (specDemand cfg code year)
      else none := by
    rw [courseDemand]
    rw [hmain]
    unfold referenced specDemand
    by_cases h : ∃ pn ∈ cfg.students_per_path, touches pn.1 code year
    · rw [if_pos h, if_pos h]
      congr 1
      dsimp only [Option.getD]
      ring
    · rw [if_neg h, if_neg h]
  rw [hsf]
  cases hlook : alistGet? code (courseDemand cfg) with
  | none =>
    have : demandGet (courseDemand cfg) code year = none := by
      rw [demandGet, hlook]
      rfl
    rw [this] at hcd
    by_cases h : referenced cfg code year
    · rw [if_pos h] at hcd
      cases hcd
    · rw [if_neg h]
      rfl
  | some ys =>
    have hbind : demandGet (courseDemand cfg) code year
        = alistGet? year ys := by
      rw [demandGet, hlook]
      rfl
    have hv : ((some ys).map (fun ys => ys.map (fun q =>
        (q.1, pyCeilDiv q.2 cfg.max_class_size)))).bind
          (fun ys => alistGet? year ys)
        = alistGet? year (ys.map (fun q =>
            (q.1, pyCeilDiv q.2 cfg.max_class_size))) := rfl
    rw [hv, hinner ys, ← hbind, hcd]
    by_cases h : referenced cfg code year
    · rw [if_pos h, if_pos h]
      rfl
    · rw [if_neg h, if_neg h]
      rfl

/-- C6 counterexample: a (course, year) pair with zero demand is not
absent from the result of `calculate_sections_needed` — with a
zero-enrollment MINIMUM path, (ENG9, year 1) has demand 0 yet is
present, mapped to 0 sections. Presence is governed by being referenced
in some enrollment entry's plan, not by nonzero demand. -/
theorem C6_counterexample :
    specDemand cfgZero "ENG9" 1 = 0 ∧
    sectionsFor cfgZero "ENG9" 1 = some 0 := by
  constructor
  · decide
  · decide

/-- C6 (corrected): for every configuration, course code and year,
`calculate_sections_needed` contains an entry for (code, year) exactly
when some enrollment entry's graduation path lists the code in that
year's plan (deduplicated across the two semester lists), and that
entry equals ceil(demand / maxClassSize), where demand sums each such
path's enrollment once per year in which the code appears. A referenced
pair with zero demand is present (mapped to ceil(0 / maxClassSize)),
not absent as claimed. -/
theorem C6_sections_eq_ceil_demand (cfg : Config) (code : String)
    (year : Int) :
    (referenced cfg code year →
      sectionsFor cfg code year
        = some (pyCeilDiv (specDemand cfg code year) cfg.max_class_size)) ∧
    (¬ referenced cfg code year → sectionsFor cfg code year = none) := by
  constructor <;> intro h <;> rw [sectionsFor_char]
  · rw [if_pos h]
  · rw [if_neg h]

theorem C6_witness :
    sectionsFor cfgM1 "ENG9" 1
      = some (pyCeilDiv (specDemand cfgM1 "ENG9" 1) cfgM1.max_class_size) :=
  (C6_sections_eq_ceil_demand cfgM1 "ENG9" 1).1 (by decide)

/-- C9 (corrected): no input validation is performed — for every
enrollment n (including negative) and every periods-per-day ppd
(including ppd < 2), with any positive class size mcs, the calculator
accepts the configuration and produces a section count for
(ENG9, year 1), namely ceil(n / mcs) as computed by Python's
`math.ceil`. Nothing is rejected before calculation. (The hypothesis
0 < mcs confines the statement to the region where `pyCeilDiv` models
`math.ceil(a / b)` exactly; at mcs = 0 the program raises
ZeroDivisionError instead, which this embedding does not model.) -/
theorem C9_no_validation (n mcs ppd : Int) (hmcs : 0 < mcs) :
    sectionsFor ⟨[(GraduationPath.MINIMUM, n)], mcs, ppd⟩ "ENG9" 1
      = some (pyCeilDiv n mcs) := by
  have htouch : touches GraduationPath.MINIMUM "ENG9" 1 := by decide
  have href : referenced ⟨[(GraduationPath.MINIMUM, n)], mcs, ppd⟩
      "ENG9" 1 :=
    ⟨(GraduationPath.MINIMUM, n), List.mem_cons_self _ _, htouch⟩
  rw [sectionsFor_char, if_pos href]
  have hsd : specDemand ⟨[(GraduationPath.MINIMUM, n)], mcs, ppd⟩
      "ENG9" 1 = n := by
    simp only [specDemand, List.map_cons, List.map_nil, List.sum_cons,
      List.sum_nil]
    rw [if_pos htouch, add_zero]
  rw [hsd]

/-- Witness for C9's amended statement at the counterexample's
configuration: the invalid input (enrollment −30, periodsPerDay 1) is
not rejected and yields ceil(−30 / 25) = −1 sections. -/
theorem C9_witness :
    (0 : Int) < 25 ∧
    sectionsFor ⟨[(GraduationPath.MINIMUM, -30)], 25, 1⟩ "ENG9" 1
      = some (pyCeilDiv (-30) 25) :=
  ⟨by decide, C9_no_validation (-30) 25 1 (by decide)⟩

end ClassSchedule
